import Mathlib

/-!
# LPC11xx I2C driver (BitThunder HAL): shallow embedding and verified properties

Source: `arch/arm/mach/lpc11xx/i2c.c`.

Conventions of the embedding

* `BT_u32` values are natural numbers; where the C arithmetic can wrap the
  reduction modulo `2 ^ 32` is written out.
* The register window of one I2C unit is the record `LPC11xx_I2C_REGS`.  The
  control register is driven through the write-one-to-set port `CONSET` and the
  write-one-to-clear port `CONCLR`; every access is appended to `log` in
  program order, so that wire-level properties are statements about the log.
* A busy-wait `while (!(CONSET & SI));` consumes the next hardware completion
  from `pending`; when no completion is left the wait never ends and the
  operation yields `none`.
* Accesses outside the three-entry table `g_I2C_HANDLES` and dereferences of a
  missing resource are undefined in C; the binder operations yield `none` there.
-/

namespace LPC11xx

/-! ## Basic types -/

/-- Modulus of the C type `BT_u32`. -/
def U32 : Nat := 2 ^ 32

/-- Error codes (`BT_ERROR`) that occur in the driver.  The header that gives
their numeric values is not among the sources; `BT_ERR_NONE` is the zero value
tested by `if (Error)`, the others are non-zero.  `MINUS_ONE` is the literal
`-1` the protocol engine and `i2cSetPowerState` return. -/
inductive BT_ERROR
  | BT_ERR_NONE
  | BT_ERR_GENERIC
  | BT_ERR_NO_MEMORY
  | MINUS_ONE
  deriving DecidableEq, Repr

open BT_ERROR

/-- Bits of the I2C control register, as named by the `CONSET` / `CONCLR`
masks the driver uses (`LPC11xx_I2C_CONSET_AA`, `..._SI`, `..._STO`, `..._STA`,
`..._I2EN`). -/
inductive CtlBit
  | AA
  | SI
  | STO
  | STA
  | I2EN
  deriving DecidableEq, Repr

/-- The mask `0xFFFFFFFF` written by `ResetI2C`: every control bit. -/
def CtlBit.all : List CtlBit := [CtlBit.AA, CtlBit.SI, CtlBit.STO, CtlBit.STA, CtlBit.I2EN]

/-- One access to the register window, in program order.  `CONSET m` covers
both `CONSET = m` and `CONSET |= m`: the port is write-one-to-set, so writing
back bits that are already set changes nothing and the effect of either form
is that the bits of `m` become set.  `waitSI` marks a completed busy-wait. -/
inductive BusOp
  | CONSET (m : List CtlBit)
  | CONCLR (m : List CtlBit)
  | DAT (v : Nat)
  | SCLH (v : Nat)
  | SCLL (v : Nat)
  | waitSI
  deriving DecidableEq, Repr

/-- What the hardware presents when it raises `SI`: the status code and the
content of the data register. -/
structure HwEvent where
  stat : Nat
  dat : Nat
  deriving DecidableEq, Repr

/-- Register window of one I2C unit (`LPC11xx_I2C_REGS`), with the future
hardware completions and the access log. -/
structure LPC11xx_I2C_REGS where
  LPC11xx_I2C_STAT : Nat
  LPC11xx_I2C_DAT : Nat
  LPC11xx_I2C_SCLH : Nat
  LPC11xx_I2C_SCLL : Nat
  pending : List HwEvent
  log : List BusOp
  deriving DecidableEq, Repr

/-- Power-on register window with the given future completions. -/
def LPC11xx_I2C_REGS.init (ev : List HwEvent) : LPC11xx_I2C_REGS :=
  { LPC11xx_I2C_STAT := 0, LPC11xx_I2C_DAT := 0, LPC11xx_I2C_SCLH := 0,
    LPC11xx_I2C_SCLL := 0, pending := ev, log := [] }

/-- Bits of the chip clock-control block (`LPC11xx_RCC`) the driver touches. -/
structure LPC11xx_RCC_REGS where
  SYSAHBCLKCTRL_I2C0EN : Bool
  PRESETCTRL_I2C_DEASSERT : Bool
  deriving DecidableEq, Repr

/-! ## Status codes

Modelled from the spec: the header `i2c.h` with the `LPC11xx_I2C_STAT_*`
values is not among the sources.  The spec names them as distinct hardware
status codes; the numbers are those of the LPC11xx I2C block. -/

/-- Status "start transmitted". -/
def LPC11xx_I2C_STAT_START_TRANSMITTED : Nat := 0x08
/-- Status "repeated start transmitted". -/
def LPC11xx_I2C_STAT_REPEAT_START_TRANSMITTED : Nat := 0x10
/-- Status "address+write acknowledged". -/
def LPC11xx_I2C_STAT_ADDRESS_W_ACK : Nat := 0x18
/-- Status "address+read acknowledged". -/
def LPC11xx_I2C_STAT_ADDRESS_R_ACK : Nat := 0x40
/-- Status "data write acknowledged". -/
def LPC11xx_I2C_STAT_DATA_W_ACK : Nat := 0x28
/-- Status "data received, ACK sent". -/
def LPC11xx_I2C_STAT_DATA_R_ACK : Nat := 0x50
/-- Status "data received, NACK sent" (no constant of the driver names it). -/
def STAT_DATA_R_NACK : Nat := 0x58

/-- Direction bit of the address byte (`BT_I2C_ACCESS_MODE`).
Modelled from the spec: the enum is declared in a header that is not among the
sources; the address byte is `(address << 1) | direction_bit`, `0xA0` for a
write to `0x50` and `0xA1` for a read. -/
inductive BT_I2C_ACCESS_MODE
  | BT_I2C_WRITE_ACCESS
  | BT_I2C_READ_ACCESS
  deriving DecidableEq, Repr

/-- Numeric value of the direction bit. -/
def BT_I2C_ACCESS_MODE.val : BT_I2C_ACCESS_MODE → Nat
  | BT_I2C_WRITE_ACCESS => 0
  | BT_I2C_READ_ACCESS => 1

/-- Operating mode of a handle (`BT_I2C_OPERATING_MODE`); `other` stands for
any value that is neither of the two enumerators. -/
inductive BT_I2C_OPERATING_MODE
  | BT_I2C_MODE_POLLED
  | BT_I2C_MODE_BUFFERED
  | other (raw : Nat)
  deriving DecidableEq, Repr

/-- Requested bus speed (`BT_I2C_CLOCKRATE`); `other` stands for any value
that is none of the four enumerators (the `default:` arm of the switch). -/
inductive BT_I2C_CLOCKRATE
  | BT_I2C_CLOCKRATE_100kHz
  | BT_I2C_CLOCKRATE_400kHz
  | BT_I2C_CLOCKRATE_1000kHz
  | BT_I2C_CLOCKRATE_3400kHz
  | other (raw : Nat)
  deriving DecidableEq, Repr

open BT_I2C_ACCESS_MODE BT_I2C_OPERATING_MODE BT_I2C_CLOCKRATE

/-! ## Register access -/

/-- Append one access to the log. -/
def LPC11xx_I2C_REGS.wr (r : LPC11xx_I2C_REGS) (op : BusOp) : LPC11xx_I2C_REGS :=
  { r with log := r.log ++ [op] }

/-- Store to the data register. -/
def LPC11xx_I2C_REGS.wrDAT (r : LPC11xx_I2C_REGS) (v : Nat) : LPC11xx_I2C_REGS :=
  { r with LPC11xx_I2C_DAT := v % U32, log := r.log ++ [BusOp.DAT (v % U32)] }

/-- Busy-wait `while (!(CONSET & SI));`: the next completion arrives and
latches its status and data; with no completion left the loop never exits. -/
def LPC11xx_I2C_REGS.waitSI (r : LPC11xx_I2C_REGS) : Option LPC11xx_I2C_REGS :=
  match r.pending with
  | [] => none
  | e :: es =>
    some { r with LPC11xx_I2C_STAT := e.stat, LPC11xx_I2C_DAT := e.dat, pending := es,
                  log := r.log ++ [BusOp.waitSI] }

/-! ## Clock divider (`i2cSetClockrate`) -/

/-- The `switch (eClockrate)` of `i2cSetClockrate`: target frequency in Hz. -/
def ulClock : BT_I2C_CLOCKRATE → Nat
  | BT_I2C_CLOCKRATE_100kHz => 100000
  | BT_I2C_CLOCKRATE_400kHz => 400000
  | BT_I2C_CLOCKRATE_1000kHz => 1000000
  | BT_I2C_CLOCKRATE_3400kHz => 3400000
  | BT_I2C_CLOCKRATE.other _ => 100000

/-- Function `i2cSetClockrate`.  `ulInputClk` is the value returned by
`BT_LPC11xx_GetSystemFrequency()` (a `BT_u32`); `w` is the number of
implemented bits of the divider registers `SCLH` / `SCLL` (the register
declaration is not among the sources; the LPC11xx implements 16), a store
keeps the low `w` bits.  `SCLL` is computed from the value read back from
`SCLH`.  The function has a single exit, `return BT_ERR_NONE`. -/
def i2cSetClockrate (w : Nat) (ulInputClk : Nat) (r : LPC11xx_I2C_REGS)
    (eClockrate : BT_I2C_CLOCKRATE) : BT_ERROR × LPC11xx_I2C_REGS :=
  let ulClkPeriod := (ulInputClk % U32) / ulClock eClockrate
  let sclh := (ulClkPeriod / 2) % 2 ^ w
  let r1 := { r with LPC11xx_I2C_SCLH := sclh, log := r.log ++ [BusOp.SCLH sclh] }
  let scll := ((ulClkPeriod + U32 - r1.LPC11xx_I2C_SCLH) % U32) % 2 ^ w
  let r2 := { r1 with LPC11xx_I2C_SCLL := scll, log := r1.log ++ [BusOp.SCLL scll] }
  (BT_ERR_NONE, r2)

/-! ## Protocol engine

The functions below take the register window `hI2C->pRegs` and return it
updated; those that busy-wait return `none` when the wait never ends. -/

/-- Function `i2cStart`: clear `SI`, set `STA`, wait, then check the status. -/
def i2cStart (pRegs : LPC11xx_I2C_REGS) : Option (BT_ERROR × LPC11xx_I2C_REGS) := do
  let r := pRegs.wr (BusOp.CONCLR [CtlBit.SI])
  let r := r.wr (BusOp.CONSET [CtlBit.STA])
  let r ← r.waitSI
  let Error :=
    if r.LPC11xx_I2C_STAT ≠ LPC11xx_I2C_STAT_START_TRANSMITTED ∧
       r.LPC11xx_I2C_STAT ≠ LPC11xx_I2C_STAT_REPEAT_START_TRANSMITTED
    then MINUS_ONE else BT_ERR_NONE
  pure (Error, r)

/-- Function `i2cSendAddress`: store `ulAddress << 1 | eAccessMode` to `DAT`, clear
`STA` and `SI`, wait, then check the status. -/
def i2cSendAddress (pRegs : LPC11xx_I2C_REGS) (ulAddress : Nat)
    (eAccessMode : BT_I2C_ACCESS_MODE) : Option (BT_ERROR × LPC11xx_I2C_REGS) := do
  let r := pRegs.wrDAT ((ulAddress <<< 1) ||| eAccessMode.val)
  let r := r.wr (BusOp.CONCLR [CtlBit.STA, CtlBit.SI])
  let r ← r.waitSI
  let Error :=
    if r.LPC11xx_I2C_STAT ≠ LPC11xx_I2C_STAT_ADDRESS_W_ACK ∧
       r.LPC11xx_I2C_STAT ≠ LPC11xx_I2C_STAT_ADDRESS_R_ACK
    then MINUS_ONE else BT_ERR_NONE
  pure (Error, r)

/-- Function `i2cSendNack`: clear `AA`, clear `SI`. -/
def i2cSendNack (pRegs : LPC11xx_I2C_REGS) : BT_ERROR × LPC11xx_I2C_REGS :=
  let r := pRegs.wr (BusOp.CONCLR [CtlBit.AA])
  let r := r.wr (BusOp.CONCLR [CtlBit.SI])
  (BT_ERR_NONE, r)

/-- Function `i2cSendAck`: set `AA`, clear `SI`. -/
def i2cSendAck (pRegs : LPC11xx_I2C_REGS) : BT_ERROR × LPC11xx_I2C_REGS :=
  let r := pRegs.wr (BusOp.CONSET [CtlBit.AA])
  let r := r.wr (BusOp.CONCLR [CtlBit.SI])
  (BT_ERR_NONE, r)

/-- Body of the loop `while (ulLength--)` of `i2cGetData`.  The first argument
is the value of `ulLength` tested by the loop condition; in the body it has
already been decremented.  `Error` and the bytes stored through `pDest` so far
are carried along. -/
def i2cGetDataLoop : Nat → LPC11xx_I2C_REGS → BT_ERROR → List Nat →
    Option (BT_ERROR × List Nat × LPC11xx_I2C_REGS)
  | 0, r, Error, dest => some (Error, dest, r)
  | ulLength + 1, r, Error, dest =>
    let r1 := if ulLength ≠ 0 then (i2cSendAck r).2 else (i2cSendNack r).2
    match r1.waitSI with
    | none => none
    | some r2 =>
      let dest1 := dest ++ [r2.LPC11xx_I2C_DAT % 256]
      let Error1 :=
        if r2.LPC11xx_I2C_STAT ≠ LPC11xx_I2C_STAT_DATA_W_ACK then MINUS_ONE else Error
      i2cGetDataLoop ulLength r2 Error1 dest1

/-- Function `i2cGetData`: returns the error and the `ulLength` bytes stored to
`pDest[0 .. ulLength-1]`. -/
def i2cGetData (pRegs : LPC11xx_I2C_REGS) (ulLength : Nat) :
    Option (BT_ERROR × List Nat × LPC11xx_I2C_REGS) :=
  i2cGetDataLoop ulLength pRegs BT_ERR_NONE []

/-- Body of the loop `while (ulLength--)` of `i2cSendData` over the bytes
`pSrc[0 .. ulLength-1]` that remain. -/
def i2cSendDataLoop : List Nat → LPC11xx_I2C_REGS → BT_ERROR →
    Option (BT_ERROR × LPC11xx_I2C_REGS)
  | [], r, Error => some (Error, r)
  | b :: bs, r, Error =>
    let r1 := r.wrDAT (b % 256)
    let r2 := r1.wr (BusOp.CONCLR [CtlBit.SI])
    match r2.waitSI with
    | none => none
    | some r3 =>
      let Error1 :=
        if r3.LPC11xx_I2C_STAT ≠ LPC11xx_I2C_STAT_DATA_W_ACK then MINUS_ONE else Error
      i2cSendDataLoop bs r3 Error1

/-- Function `i2cSendData`; `pSrc` is the list of the `ulLength` source bytes. -/
def i2cSendData (pRegs : LPC11xx_I2C_REGS) (pSrc : List Nat) :
    Option (BT_ERROR × LPC11xx_I2C_REGS) :=
  i2cSendDataLoop pSrc pRegs BT_ERR_NONE

/-- Function `i2cGetAck`: whether the last status is one of the four acknowledge
codes; `*pError` is set to `BT_ERR_NONE`. -/
def i2cGetAck (pRegs : LPC11xx_I2C_REGS) : Bool :=
  if pRegs.LPC11xx_I2C_STAT ≠ LPC11xx_I2C_STAT_ADDRESS_W_ACK ∧
     pRegs.LPC11xx_I2C_STAT ≠ LPC11xx_I2C_STAT_ADDRESS_R_ACK ∧
     pRegs.LPC11xx_I2C_STAT ≠ LPC11xx_I2C_STAT_DATA_W_ACK ∧
     pRegs.LPC11xx_I2C_STAT ≠ LPC11xx_I2C_STAT_DATA_R_ACK
  then false else true

/-- Function `i2cStop`: set `STO`, clear `SI`. -/
def i2cStop (pRegs : LPC11xx_I2C_REGS) : BT_ERROR × LPC11xx_I2C_REGS :=
  let r := pRegs.wr (BusOp.CONSET [CtlBit.STO])
  let r := r.wr (BusOp.CONCLR [CtlBit.SI])
  (BT_ERR_NONE, r)

/-! ## Handles and resources -/

/-- Resource kinds (`BT_RESOURCE_MEM`, `BT_RESOURCE_ENUM`, `BT_RESOURCE_IRQ`). -/
inductive BT_RESOURCE_TYPE
  | BT_RESOURCE_MEM
  | BT_RESOURCE_ENUM
  | BT_RESOURCE_IRQ
  deriving DecidableEq, Repr

open BT_RESOURCE_TYPE

/-- One entry of a device's resource array (`BT_RESOURCE`). -/
structure BT_RESOURCE where
  ulStart : Nat
  ulEnd : Nat
  ulFlags : BT_RESOURCE_TYPE
  deriving DecidableEq, Repr

/-- Device descriptor (`BT_INTEGRATED_DEVICE`); `ulTotalResources` is the
length of `pResources`. -/
structure BT_INTEGRATED_DEVICE where
  id : Nat
  pResources : List BT_RESOURCE
  deriving DecidableEq, Repr

/-- Modelled from the spec: `BT_GetIntegratedResource` belongs to the resource
discovery collaborator and is not among the sources.  It yields the
`ulNum`-th resource of the requested kind of the descriptor, or `NULL`
(`none`) when the descriptor has no such resource. -/
def BT_GetIntegratedResource (pDevice : BT_INTEGRATED_DEVICE) (ulType : BT_RESOURCE_TYPE)
    (ulNum : Nat) : Option BT_RESOURCE :=
  (pDevice.pResources.filter (fun res => res.ulFlags = ulType))[ulNum]?

/-- The descriptor `oLPC11xx_i2c0_device` of the source, for the register base
`BT_CONFIG_MACH_LPC11xx_I2C0_BASE` (`BT_SIZE_4K` is 4096). -/
def oLPC11xx_i2c0_device (base : Nat) : BT_INTEGRATED_DEVICE :=
  { id := 0,
    pResources :=
      [ { ulStart := base, ulEnd := base + 4096 - 1, ulFlags := BT_RESOURCE_MEM },
        { ulStart := 0, ulEnd := 0, ulFlags := BT_RESOURCE_ENUM },
        { ulStart := 31, ulEnd := 31, ulFlags := BT_RESOURCE_IRQ } ] }

/-- A ring buffer handle: the address `BT_FifoCreate` returned and the element
count it was created with. -/
structure BT_FIFO where
  addr : Nat
  ulElements : Nat
  deriving DecidableEq, Repr

/-- Modelled from the spec: `BT_FifoCreate(ulElements, 1, 0, &Error)` belongs
to the ring-buffer collaborator and is not among the sources.  `alloc` is the
address the allocator hands out, `none` when it has no memory; the call then
returns `NULL`.  The `Error` it stores is never read by the driver. -/
def BT_FifoCreate (alloc : Option Nat) (ulElements : Nat) : Option BT_FIFO :=
  match alloc with
  | none => none
  | some a => some { addr := a, ulElements := ulElements }

/-- The driver's handle (`struct _BT_OPAQUE_HANDLE`).  `pRegs` is the address
of the register window; `regs` is the content of that window, which the
instance owns exclusively while it is open. -/
structure BT_OPAQUE_HANDLE where
  pRegs : Nat
  regs : LPC11xx_I2C_REGS
  pDevice : BT_INTEGRATED_DEVICE
  eMode : BT_I2C_OPERATING_MODE
  hRxFifo : Option BT_FIFO
  hTxFifo : Option BT_FIFO
  deriving DecidableEq, Repr

/-- Function `ResetI2C`: `CONCLR = 0xFFFFFFFF`. -/
def ResetI2C (hI2C : BT_OPAQUE_HANDLE) : BT_OPAQUE_HANDLE :=
  { hI2C with regs := hI2C.regs.wr (BusOp.CONCLR CtlBit.all) }

/-! ## Transfers (`i2cRead`, `i2cWrite`) -/

/-- Function `i2cRead`.  Returns the error, the bytes stored to `pucDest` and the
handle.  The value of `i2cStart` is not assigned; `goto err_out` runs `i2cStop`
and returns `Error`. -/
def i2cRead (hI2C : BT_OPAQUE_HANDLE) (ucDevice : Nat) (ulLength : Nat) :
    Option (BT_ERROR × List Nat × BT_OPAQUE_HANDLE) :=
  match hI2C.eMode with
  | BT_I2C_MODE_POLLED => do
    let (_, r1) ← i2cStart hI2C.regs
    let (Error, r2) ← i2cSendAddress r1 (ucDevice % 256) BT_I2C_READ_ACCESS
    if Error ≠ BT_ERR_NONE then
      pure (Error, [], { hI2C with regs := (i2cStop r2).2 })
    else
      let (Error, dest, r3) ← i2cGetData r2 ulLength
      if Error ≠ BT_ERR_NONE then
        pure (Error, dest, { hI2C with regs := (i2cStop r3).2 })
      else
        let (Error, r4) := i2cStop r3
        pure (Error, dest, { hI2C with regs := r4 })
  | BT_I2C_MODE_BUFFERED => some (BT_ERR_NONE, [], hI2C)
  | BT_I2C_OPERATING_MODE.other _ => some (BT_ERR_NONE, [], hI2C)

/-- Function `i2cWrite`; `pucSource` is the list of the `ulLength` source bytes. -/
def i2cWrite (hI2C : BT_OPAQUE_HANDLE) (ucDevice : Nat) (pucSource : List Nat) :
    Option (BT_ERROR × BT_OPAQUE_HANDLE) :=
  match hI2C.eMode with
  | BT_I2C_MODE_POLLED => do
    let (_, r1) ← i2cStart hI2C.regs
    let (Error, r2) ← i2cSendAddress r1 (ucDevice % 256) BT_I2C_WRITE_ACCESS
    if Error ≠ BT_ERR_NONE then
      pure (Error, { hI2C with regs := (i2cStop r2).2 })
    else
      let (Error, r3) ← i2cSendData r2 pucSource
      if Error ≠ BT_ERR_NONE then
        pure (Error, { hI2C with regs := (i2cStop r3).2 })
      else
        let (Error, r4) := i2cStop r3
        pure (Error, { hI2C with regs := r4 })
  | BT_I2C_MODE_BUFFERED => some (BT_ERR_NONE, hI2C)
  | BT_I2C_OPERATING_MODE.other _ => some (BT_ERR_NONE, hI2C)

/-! ## Mode manager (`i2cEnable`, `i2cSetConfig`) -/

/-- Function `i2cEnable`: de-assert the block reset, set `I2EN`. -/
def i2cEnable (hI2C : BT_OPAQUE_HANDLE) (rcc : LPC11xx_RCC_REGS) :
    BT_ERROR × BT_OPAQUE_HANDLE × LPC11xx_RCC_REGS :=
  let rcc1 := { rcc with PRESETCTRL_I2C_DEASSERT := true }
  let h1 := { hI2C with regs := hI2C.regs.wr (BusOp.CONSET [CtlBit.I2EN]) }
  (BT_ERR_NONE, h1, rcc1)

/-- Caller-supplied configuration (`BT_I2C_CONFIG`). -/
structure BT_I2C_CONFIG where
  eMode : BT_I2C_OPERATING_MODE
  ulClockrate : BT_I2C_CLOCKRATE
  ulRxBufferSize : Nat
  ulTxBufferSize : Nat
  deriving DecidableEq, Repr

/-- What the collaborators answer during one `i2cSetConfig` call: the width
`w` of the divider registers, the system frequency, and the addresses the
allocator hands to the two `BT_FifoCreate` calls (`none`: out of memory). -/
structure ConfigEnv where
  w : Nat
  ulInputClk : Nat
  rxAlloc : Option Nat
  txAlloc : Option Nat
  deriving DecidableEq, Repr

/-- Ring-buffer operations a call performed, in order. -/
inductive FifoOp
  | create (ulElements : Nat)
  | close (f : BT_FIFO)
  deriving DecidableEq, Repr

/-- Result of `i2cSetConfig`. -/
structure ConfigResult where
  Error : BT_ERROR
  hI2C : BT_OPAQUE_HANDLE
  rcc : LPC11xx_RCC_REGS
  fifoOps : List FifoOp
  deriving DecidableEq, Repr

/-- The `BT_I2C_MODE_POLLED` arm of `i2cSetConfig`. -/
def i2cSetConfigPolled (h : BT_OPAQUE_HANDLE) : BT_OPAQUE_HANDLE × List FifoOp :=
  if h.eMode ≠ BT_I2C_MODE_POLLED then
    let (h1, ops1) :=
      match h.hTxFifo with
      | some f => ({ h with hTxFifo := none }, [FifoOp.close f])
      | none => (h, [])
    let (h2, ops2) :=
      match h1.hRxFifo with
      | some f => ({ h1 with hRxFifo := none }, ops1 ++ [FifoOp.close f])
      | none => (h1, ops1)
    ({ h2 with eMode := BT_I2C_MODE_POLLED }, ops2)
  else (h, [])

/-- The `BT_I2C_MODE_BUFFERED` arm of `i2cSetConfig`. -/
def i2cSetConfigBuffered (env : ConfigEnv) (h : BT_OPAQUE_HANDLE) (pConfig : BT_I2C_CONFIG) :
    BT_OPAQUE_HANDLE × List FifoOp :=
  if h.eMode ≠ BT_I2C_MODE_BUFFERED then
    if h.hRxFifo = none ∧ h.hTxFifo = none then
      ({ h with hRxFifo := BT_FifoCreate env.rxAlloc pConfig.ulRxBufferSize,
                hTxFifo := BT_FifoCreate env.txAlloc pConfig.ulTxBufferSize,
                eMode := BT_I2C_MODE_BUFFERED },
       [FifoOp.create pConfig.ulRxBufferSize, FifoOp.create pConfig.ulTxBufferSize])
    else (h, [])
  else (h, [])

/-- Function `i2cSetConfig`: enable, program the divider, then switch on
`pConfig->eMode`.  The values of `i2cEnable` and `i2cSetClockrate` are not
assigned and the only exit is `return BT_ERR_NONE`. -/
def i2cSetConfig (env : ConfigEnv) (rcc : LPC11xx_RCC_REGS) (hI2C : BT_OPAQUE_HANDLE)
    (pConfig : BT_I2C_CONFIG) : ConfigResult :=
  let (_, h1, rcc1) := i2cEnable hI2C rcc
  let (_, r2) := i2cSetClockrate env.w env.ulInputClk h1.regs pConfig.ulClockrate
  let h2 := { h1 with regs := r2 }
  let (h3, ops) :=
    match pConfig.eMode with
    | BT_I2C_MODE_POLLED => i2cSetConfigPolled h2
    | BT_I2C_MODE_BUFFERED => i2cSetConfigBuffered env h2 pConfig
    | BT_I2C_OPERATING_MODE.other _ => (h2, [])
  { Error := BT_ERR_NONE, hI2C := h3, rcc := rcc1, fifoOps := ops }

/-! ## Power control -/

/-- Power states (`BT_POWER_STATE`); `other` is any further value. -/
inductive BT_POWER_STATE
  | BT_POWER_STATE_ASLEEP
  | BT_POWER_STATE_AWAKE
  | other (raw : Nat)
  deriving DecidableEq, Repr

open BT_POWER_STATE

/-- Function `enablei2cPeripheralClock`; `none` when the descriptor has no `ENUM`
resource (the returned pointer is dereferenced unchecked). -/
def enablei2cPeripheralClock (hI2C : BT_OPAQUE_HANDLE) (rcc : LPC11xx_RCC_REGS) :
    Option LPC11xx_RCC_REGS :=
  match BT_GetIntegratedResource hI2C.pDevice BT_RESOURCE_ENUM 0 with
  | none => none
  | some pResource =>
    match pResource.ulStart with
    | 0 => some { rcc with SYSAHBCLKCTRL_I2C0EN := true }
    | _ => some rcc

/-- Function `disablei2cPeripheralClock`. -/
def disablei2cPeripheralClock (hI2C : BT_OPAQUE_HANDLE) (rcc : LPC11xx_RCC_REGS) :
    Option LPC11xx_RCC_REGS :=
  match BT_GetIntegratedResource hI2C.pDevice BT_RESOURCE_ENUM 0 with
  | none => none
  | some pResource =>
    match pResource.ulStart with
    | 0 => some { rcc with SYSAHBCLKCTRL_I2C0EN := false }
    | _ => some rcc

/-- Function `isi2cPeripheralClockEnabled`. -/
def isi2cPeripheralClockEnabled (hI2C : BT_OPAQUE_HANDLE) (rcc : LPC11xx_RCC_REGS) :
    Option Bool :=
  match BT_GetIntegratedResource hI2C.pDevice BT_RESOURCE_ENUM 0 with
  | none => none
  | some pResource =>
    match pResource.ulStart with
    | 0 => if rcc.SYSAHBCLKCTRL_I2C0EN then some true else some false
    | _ => some false

/-- Function `i2cSetPowerState`. -/
def i2cSetPowerState (hI2C : BT_OPAQUE_HANDLE) (ePowerState : BT_POWER_STATE)
    (rcc : LPC11xx_RCC_REGS) : Option (BT_ERROR × LPC11xx_RCC_REGS) :=
  match ePowerState with
  | BT_POWER_STATE_ASLEEP => (disablei2cPeripheralClock hI2C rcc).map (fun c => (BT_ERR_NONE, c))
  | BT_POWER_STATE_AWAKE => (enablei2cPeripheralClock hI2C rcc).map (fun c => (BT_ERR_NONE, c))
  | BT_POWER_STATE.other _ => some (MINUS_ONE, rcc)

/-! ## Resource binder (`i2c_probe`, `i2cCleanup`) -/

/-- Driver-wide state: the table `g_I2C_HANDLES`, the handle objects that are
allocated (a `BT_HANDLE` is the key of its object), the next address the handle
allocator hands out, the clock-control block, the interrupt lines disabled so
far and the ring buffers closed so far. -/
structure DriverState where
  g_I2C_HANDLES : List (Option Nat)
  heap : List (Nat × BT_OPAQUE_HANDLE)
  next : Nat
  rcc : LPC11xx_RCC_REGS
  irqDisabled : List Nat
  closed : List (Option BT_FIFO)
  deriving DecidableEq, Repr

/-- The state at start-up: `g_I2C_HANDLES = { NULL, NULL, NULL }`. -/
def DriverState.init : DriverState :=
  { g_I2C_HANDLES := [none, none, none], heap := [], next := 1,
    rcc := { SYSAHBCLKCTRL_I2C0EN := false, PRESETCTRL_I2C_DEASSERT := false },
    irqDisabled := [], closed := [] }

/-- What `i2c_probe` hands back: the handle (`none` is `NULL`) and the value it
stored through `pError` (`none`: nothing stored). -/
structure ProbeResult where
  hI2C : Option Nat
  pError : Option BT_ERROR
  deriving DecidableEq, Repr

/-- The exits `err_free_out` / `err_out` of `i2c_probe`: `*pError = Error` when
`pError` is not `NULL`, `return NULL`. -/
def probeFail (pErrorGiven : Bool) (Error : BT_ERROR) (st : DriverState) :
    Option (ProbeResult × DriverState) :=
  some ({ hI2C := none, pError := if pErrorGiven then some Error else none }, st)

/-- Function `i2c_probe`.

Modelled from the spec: `BT_CreateHandle` and `BT_DestroyHandle` belong to the
generic handle allocator/destroyer and are not among the sources.
`createOk` tells whether `BT_CreateHandle` returns a handle; a new handle is
zero-filled (mode Polled, no buffers).  `BT_DestroyHandle` releases the handle
object (here: it never enters `heap`), does nothing for `NULL`, and does not
touch `g_I2C_HANDLES`.

`win` is the content of the register window at the `MEM` resource's address,
`pErrorGiven` tells whether `pError` is not `NULL`.  The result is `none` when
the table is indexed outside its three entries. -/
def i2c_probe (pDevice : BT_INTEGRATED_DEVICE) (createOk : Bool) (win : LPC11xx_I2C_REGS)
    (pErrorGiven : Bool) (st : DriverState) : Option (ProbeResult × DriverState) :=
  match BT_GetIntegratedResource pDevice BT_RESOURCE_ENUM 0 with
  | none => probeFail pErrorGiven BT_ERR_NO_MEMORY st
  | some pResource =>
    match st.g_I2C_HANDLES[pResource.ulStart]? with
    | none => none
    | some (some _) => probeFail pErrorGiven BT_ERR_GENERIC st
    | some none =>
      if createOk = false then probeFail pErrorGiven BT_ERR_NONE st
      else
        let hI2C := st.next
        let st1 := { st with next := st.next + 1,
                             g_I2C_HANDLES := st.g_I2C_HANDLES.set pResource.ulStart (some hI2C) }
        match BT_GetIntegratedResource pDevice BT_RESOURCE_MEM 0 with
        | none => probeFail pErrorGiven BT_ERR_NO_MEMORY st1
        | some mem =>
          let obj : BT_OPAQUE_HANDLE :=
            { pRegs := mem.ulStart, regs := win, pDevice := pDevice,
              eMode := BT_I2C_MODE_POLLED, hRxFifo := none, hTxFifo := none }
          match i2cSetPowerState obj BT_POWER_STATE_AWAKE st1.rcc with
          | none => none
          | some (_, rcc1) =>
            let obj1 := ResetI2C obj
            let st2 := { st1 with rcc := rcc1 }
            match BT_GetIntegratedResource pDevice BT_RESOURCE_IRQ 0 with
            | none => probeFail pErrorGiven BT_ERR_GENERIC st2
            | some _ =>
              some ({ hI2C := some hI2C, pError := none },
                    { st2 with heap := st2.heap ++ [(hI2C, obj1)] })

/-- The object of an allocated handle. -/
def DriverState.obj (st : DriverState) (hI2C : Nat) : Option BT_OPAQUE_HANDLE :=
  (st.heap.find? (fun p => p.1 = hI2C)).map (fun p => p.2)

/-- Function `i2cCleanup`.  `none` when `hI2C` is not an allocated handle, when a
resource pointer that is dereferenced is `NULL`, or when the table is indexed
outside its three entries. -/
def i2cCleanup (hI2C : Nat) (st : DriverState) : Option (BT_ERROR × DriverState) :=
  match st.obj hI2C with
  | none => none
  | some obj =>
    let obj1 := ResetI2C obj
    match disablei2cPeripheralClock obj1 st.rcc with
    | none => none
    | some rcc1 =>
      let closed1 :=
        if obj1.eMode = BT_I2C_MODE_BUFFERED then st.closed ++ [obj1.hTxFifo, obj1.hRxFifo]
        else st.closed
      match BT_GetIntegratedResource obj1.pDevice BT_RESOURCE_IRQ 0 with
      | none => none
      | some irq =>
        match BT_GetIntegratedResource obj1.pDevice BT_RESOURCE_ENUM 0 with
        | none => none
        | some pResource =>
          if pResource.ulStart < st.g_I2C_HANDLES.length then
            some (BT_ERR_NONE,
              { st with
                  heap := st.heap.map (fun p => if p.1 = hI2C then (hI2C, obj1) else p),
                  rcc := rcc1,
                  closed := closed1,
                  irqDisabled := st.irqDisabled ++ [irq.ulStart],
                  g_I2C_HANDLES := st.g_I2C_HANDLES.set pResource.ulStart none })
          else none

/-- Modelled from the spec: `BT_CloseHandle` belongs to the generic handle
destroyer and is not among the sources.  It runs the handle's cleanup routine
(`i2cCleanup`, registered in `oHandleInterface`) and then releases the handle
object. -/
def BT_CloseHandle (hI2C : Nat) (st : DriverState) : Option (BT_ERROR × DriverState) :=
  match i2cCleanup hI2C st with
  | none => none
  | some (Error, st1) =>
    some (Error, { st1 with heap := st1.heap.filter (fun p => p.1 ≠ hI2C) })

/-- One call of a bind/cleanup sequence, with what the collaborators answer. -/
inductive BinderCall
  | bind (pDevice : BT_INTEGRATED_DEVICE) (createOk : Bool) (win : LPC11xx_I2C_REGS)
      (pErrorGiven : Bool)
  | cleanup (hI2C : Nat)
  deriving DecidableEq, Repr

/-- Run one call. -/
def BinderCall.step (c : BinderCall) (st : DriverState) : Option DriverState :=
  match c with
  | BinderCall.bind pDevice createOk win pErrorGiven =>
    (i2c_probe pDevice createOk win pErrorGiven st).map (fun p => p.2)
  | BinderCall.cleanup hI2C => (BT_CloseHandle hI2C st).map (fun p => p.2)

/-- Run a sequence of calls from a state. -/
def runCalls : List BinderCall → DriverState → Option DriverState
  | [], st => some st
  | c :: cs, st =>
    match c.step st with
    | none => none
    | some st1 => runCalls cs st1

/-- A bound instance of unit 0 (register base `0x4000`, IRQ 31) in Polled mode
without buffers, whose hardware will deliver the completions `ev`. -/
def polledHandle (ev : List HwEvent) : BT_OPAQUE_HANDLE :=
  { pRegs := 0x4000, regs := LPC11xx_I2C_REGS.init ev,
    pDevice := oLPC11xx_i2c0_device 0x4000, eMode := BT_I2C_MODE_POLLED,
    hRxFifo := none, hTxFifo := none }

/-- Clock-control block after reset. -/
def rccReset : LPC11xx_RCC_REGS :=
  { SYSAHBCLKCTRL_I2C0EN := false, PRESETCTRL_I2C_DEASSERT := false }

/-! ## Reading the access log -/

/-- The values stored to the data register, in order. -/
def datWrites : List BusOp → List Nat
  | [] => []
  | BusOp.DAT v :: ops => v :: datWrites ops
  | _ :: ops => datWrites ops

/-- Whether an access asserts the Stop condition (sets `STO`). -/
def BusOp.setsSTO : BusOp → Bool
  | BusOp.CONSET m => decide (CtlBit.STO ∈ m)
  | _ => false

/-- The acknowledge settings in a log, in order: `true` for an access that
sets `AA` (ACK after receive), `false` for one that clears `AA` (NACK). -/
def ackSettings : List BusOp → List Bool
  | [] => []
  | BusOp.CONSET m :: ops =>
    if CtlBit.AA ∈ m then true :: ackSettings ops else ackSettings ops
  | BusOp.CONCLR m :: ops =>
    if CtlBit.AA ∈ m then false :: ackSettings ops else ackSettings ops
  | _ :: ops => ackSettings ops

/-- Accesses of the Start phase. -/
def startTrace : List BusOp :=
  [BusOp.CONCLR [CtlBit.SI], BusOp.CONSET [CtlBit.STA], BusOp.waitSI]

/-- Accesses of the Address phase for the address byte `v`. -/
def addressTrace (v : Nat) : List BusOp :=
  [BusOp.DAT v, BusOp.CONCLR [CtlBit.STA, CtlBit.SI], BusOp.waitSI]

/-- Accesses of the Stop phase. -/
def stopTrace : List BusOp :=
  [BusOp.CONSET [CtlBit.STO], BusOp.CONCLR [CtlBit.SI]]

/-- Accesses of the write data phase for the bytes `bs`. -/
def sendTrace : List Nat → List BusOp
  | [] => []
  | b :: bs => [BusOp.DAT b, BusOp.CONCLR [CtlBit.SI], BusOp.waitSI] ++ sendTrace bs

/-- Accesses of the read data phase for one byte that is answered with ACK. -/
def ackByteTrace : List BusOp :=
  [BusOp.CONSET [CtlBit.AA], BusOp.CONCLR [CtlBit.SI], BusOp.waitSI]

/-- Accesses of the read data phase for one byte that is answered with NACK. -/
def nackByteTrace : List BusOp :=
  [BusOp.CONCLR [CtlBit.AA], BusOp.CONCLR [CtlBit.SI], BusOp.waitSI]

/-- Accesses of the read data phase for `n` bytes: ACK for all but the last. -/
def getTrace : Nat → List BusOp
  | 0 => []
  | n + 1 => (if n ≠ 0 then ackByteTrace else nackByteTrace) ++ getTrace n

/-- The completions of a nominal write data phase: one "data write
acknowledged" per byte; `ds` are the data register contents at each. -/
def nominalWriteEvents (ds : List Nat) : List HwEvent :=
  ds.map (fun d => { stat := LPC11xx_I2C_STAT_DATA_W_ACK, dat := d })

/-- The completions of a nominal read data phase delivering the bytes `ds`:
"data received, ACK sent" for all but the last, "data received, NACK sent" for
the last. -/
def nominalReadEvents : List Nat → List HwEvent
  | [] => []
  | [d] => [{ stat := STAT_DATA_R_NACK, dat := d }]
  | d :: ds => { stat := LPC11xx_I2C_STAT_DATA_R_ACK, dat := d } :: nominalReadEvents ds

/-- Whether every completion of a list reports "data write acknowledged". -/
def allDataWAck (evs : List HwEvent) : Bool :=
  evs.all (fun e => decide (e.stat = LPC11xx_I2C_STAT_DATA_W_ACK))

/-- The list `t` repeated `k` times. -/
def repeatTrace : Nat → List BusOp → List BusOp
  | 0, _ => []
  | k + 1, t => t ++ repeatTrace k t

/-! ## Stating the binder and mode-manager properties -/

/-- The enumeration index of a descriptor, if it has an `ENUM` resource. -/
def enumIndex (pDevice : BT_INTEGRATED_DEVICE) : Option Nat :=
  (BT_GetIntegratedResource pDevice BT_RESOURCE_ENUM 0).map (fun res => res.ulStart)

/-- A descriptor is complete when it has a register window, an enumeration
index and an interrupt line. -/
def completeDescriptor (pDevice : BT_INTEGRATED_DEVICE) : Prop :=
  (BT_GetIntegratedResource pDevice BT_RESOURCE_MEM 0).isSome = true ∧
  (BT_GetIntegratedResource pDevice BT_RESOURCE_ENUM 0).isSome = true ∧
  (BT_GetIntegratedResource pDevice BT_RESOURCE_IRQ 0).isSome = true

/-- The instance `hI2C` with object `obj` is live (bound and not cleaned up)
at enumeration index `i`. -/
def DriverState.liveAt (st : DriverState) (i hI2C : Nat) (obj : BT_OPAQUE_HANDLE) : Prop :=
  (hI2C, obj) ∈ st.heap ∧ enumIndex obj.pDevice = some i

/-- Invariant of the binder: the table has three entries; every live instance
has an enumeration index, sits in the slot of that index and has an interrupt
line; handles are below the allocator's next address and pairwise distinct. -/
structure BinderInv (st : DriverState) : Prop where
  len : st.g_I2C_HANDLES.length = 3
  slot : ∀ h o, (h, o) ∈ st.heap →
    h < st.next ∧ ∃ i, enumIndex o.pDevice = some i ∧
      st.g_I2C_HANDLES[i]? = some (some h) ∧
      (BT_GetIntegratedResource o.pDevice BT_RESOURCE_IRQ 0).isSome = true
  nodup : (st.heap.map Prod.fst).Nodup

/-- Run a sequence of `i2cSetConfig` calls on one instance. -/
def runConfig : List (ConfigEnv × BT_I2C_CONFIG) → LPC11xx_RCC_REGS → BT_OPAQUE_HANDLE →
    BT_OPAQUE_HANDLE × LPC11xx_RCC_REGS
  | [], rcc, h => (h, rcc)
  | (env, cfg) :: cs, rcc, h =>
    runConfig cs (i2cSetConfig env rcc h cfg).rcc (i2cSetConfig env rcc h cfg).hI2C

/-- Both ring buffers exist. -/
def buffersExist (h : BT_OPAQUE_HANDLE) : Prop :=
  h.hRxFifo.isSome = true ∧ h.hTxFifo.isSome = true

/-- The state after binding unit 0 (base `0x4000`, IRQ 31) from start-up. -/
def boundUnit0 : DriverState :=
  { g_I2C_HANDLES := [some 1, none, none],
    heap := [(1, ResetI2C (polledHandle []))],
    next := 2,
    rcc := { SYSAHBCLKCTRL_I2C0EN := true, PRESETCTRL_I2C_DEASSERT := false },
    irqDisabled := [], closed := [] }

/-! ## Power query, configuration read-back and further instances -/

/-- What `i2cGetPowerState` hands back: `ret` is the value of its `return`
statement (the function returns the `BT_POWER_STATE` constant in its
`BT_ERROR` result), `pePowerState` is the value stored through the pointer of
that name (`none`: nothing is stored), `rcc` is the clock-control block after
the call. -/
structure PowerQuery where
  ret : BT_POWER_STATE
  pePowerState : Option BT_POWER_STATE
  rcc : LPC11xx_RCC_REGS
  deriving DecidableEq, Repr

/-- Function `i2cGetPowerState`: `BT_POWER_STATE_AWAKE` when
`isi2cPeripheralClockEnabled`, else `BT_POWER_STATE_ASLEEP`.  The function
contains no store. -/
def i2cGetPowerState (hI2C : BT_OPAQUE_HANDLE) (rcc : LPC11xx_RCC_REGS) : Option PowerQuery :=
  match isi2cPeripheralClockEnabled hI2C rcc with
  | none => none
  | some true => some { ret := BT_POWER_STATE_AWAKE, pePowerState := none, rcc := rcc }
  | some false => some { ret := BT_POWER_STATE_ASLEEP, pePowerState := none, rcc := rcc }

/-- Modelled from the spec: `BT_FifoSize(hFifo, &Error)` belongs to the
ring-buffer collaborator and is not among the sources.  It yields the element
count of the buffer; for a handle that is `NULL` the query fails and stores
the error `eQuery` (a code defined outside the sources) to `Error`. -/
def BT_FifoSize (eQuery : BT_ERROR) (hFifo : Option BT_FIFO) (Error : BT_ERROR) :
    Nat × BT_ERROR :=
  match hFifo with
  | some f => (f.ulElements, Error)
  | none => (0, eQuery)

/-- Function `i2cGetConfig`.  `ulInputClk` is the value of
`BT_LPC11xx_GetSystemFrequency()`.  The quotient
`ulInputClk / (SCLH + SCLL)` is computed in `BT_u32`; a zero divisor is
undefined in C and yields `none`.  The quotient is not used afterwards (the
`switch` on it is commented out), so `pConfig->ulClockrate` keeps its value. -/
def i2cGetConfig (eQuery : BT_ERROR) (ulInputClk : Nat) (hI2C : BT_OPAQUE_HANDLE)
    (pConfig : BT_I2C_CONFIG) : Option (BT_ERROR × BT_I2C_CONFIG) :=
  let cfg1 := { pConfig with eMode := hI2C.eMode }
  let divisor := (hI2C.regs.LPC11xx_I2C_SCLH + hI2C.regs.LPC11xx_I2C_SCLL) % U32
  if divisor = 0 then none
  else
    let _ulClkPeriod := (ulInputClk % U32) / divisor
    let (tx, Error1) := BT_FifoSize eQuery hI2C.hTxFifo BT_ERR_NONE
    let (rx, Error2) := BT_FifoSize eQuery hI2C.hRxFifo Error1
    some (Error2, { cfg1 with ulTxBufferSize := tx, ulRxBufferSize := rx, eMode := hI2C.eMode })

/-- A descriptor with register base `base`, enumeration index `idx` and
interrupt line `irq`, laid out like `oLPC11xx_i2c0_resources`. -/
def i2cDevice (base idx irq : Nat) : BT_INTEGRATED_DEVICE :=
  { id := idx,
    pResources :=
      [ { ulStart := base, ulEnd := base + 4096 - 1, ulFlags := BT_RESOURCE_MEM },
        { ulStart := idx, ulEnd := idx, ulFlags := BT_RESOURCE_ENUM },
        { ulStart := irq, ulEnd := irq, ulFlags := BT_RESOURCE_IRQ } ] }

/-- A descriptor for unit 0 that lacks the register window. -/
def i2cDeviceNoMem : BT_INTEGRATED_DEVICE :=
  { id := 0,
    pResources :=
      [ { ulStart := 0, ulEnd := 0, ulFlags := BT_RESOURCE_ENUM },
        { ulStart := 31, ulEnd := 31, ulFlags := BT_RESOURCE_IRQ } ] }

/-- A descriptor for unit 0 that lacks the interrupt line. -/
def i2cDeviceNoIrq : BT_INTEGRATED_DEVICE :=
  { id := 0,
    pResources :=
      [ { ulStart := 0x4000, ulEnd := 0x4000 + 4096 - 1, ulFlags := BT_RESOURCE_MEM },
        { ulStart := 0, ulEnd := 0, ulFlags := BT_RESOURCE_ENUM } ] }

/-- The handle object of unit 1 (register base `0x5000`, IRQ 32) as
`BT_CreateHandle` and `i2c_probe` fill it in, before `ResetI2C`. -/
def unit1Handle : BT_OPAQUE_HANDLE :=
  { pRegs := 0x5000, regs := LPC11xx_I2C_REGS.init [],
    pDevice := i2cDevice 0x5000 1 32, eMode := BT_I2C_MODE_POLLED,
    hRxFifo := none, hTxFifo := none }

/-- A driver state in which handle 1 is the instance of a descriptor with
enumeration index 3. -/
def stateWithUnit3 : DriverState :=
  { g_I2C_HANDLES := [none, none, none],
    heap := [(1, { pRegs := 0x7000, regs := LPC11xx_I2C_REGS.init [],
                   pDevice := i2cDevice 0x7000 3 34, eMode := BT_I2C_MODE_POLLED,
                   hRxFifo := none, hTxFifo := none })],
    next := 2, rcc := rccReset, irqDisabled := [], closed := [] }


/-! # Theorems -/

/-! ## Resource binder: auxiliary facts -/

/-- The start-up state satisfies the binder invariant. -/
theorem binderInv_init : BinderInv DriverState.init :=
  { len := rfl
    slot := by intro h o hm; simp [DriverState.init] at hm
    nodup := by simp [DriverState.init] }

/-- With distinct keys, a handle has one object. -/
theorem obj_unique (l : List (Nat × BT_OPAQUE_HANDLE)) (hn : (l.map Prod.fst).Nodup)
    (h : Nat) (o1 o2 : BT_OPAQUE_HANDLE) (h1 : (h, o1) ∈ l) (h2 : (h, o2) ∈ l) : o1 = o2 := by
  induction l with
  | nil => simp at h1
  | cons p l ih =>
    simp only [List.map_cons, List.nodup_cons, List.mem_map, not_exists, not_and] at hn
    simp only [List.mem_cons] at h1 h2
    rcases h1 with h1 | h1 <;> rcases h2 with h2 | h2
    · rw [← h1] at h2; exact (Prod.mk.inj h2).2.symm
    · exact absurd (by rw [← h1]) (hn.1 (h, o2) h2)
    · exact absurd (by rw [← h2]) (hn.1 (h, o1) h1)
    · exact ih hn.2 h1 h2

/-- Storing a handle in a free slot keeps the slots of the live instances. -/
theorem binderInv_set_free (st : DriverState) (hinv : BinderInv st) (i : Nat)
    (hfree : st.g_I2C_HANDLES[i]? = some none) (rcc : LPC11xx_RCC_REGS) :
    BinderInv { st with next := st.next + 1,
                        g_I2C_HANDLES := st.g_I2C_HANDLES.set i (some st.next),
                        rcc := rcc } :=
  { len := by simp [hinv.len]
    slot := by
      intro h o hm
      obtain ⟨hlt, j, hj, hslot, hirq⟩ := hinv.slot h o hm
      refine ⟨Nat.lt_succ_of_lt hlt, j, hj, ?_, hirq⟩
      have hne : i ≠ j := by
        intro he
        rw [he, hslot] at hfree
        cases hfree
      simp only
      rw [List.getElem?_set_ne hne]
      exact hslot
    nodup := hinv.nodup }

/-- Function `i2c_probe` keeps the binder invariant. -/
theorem i2c_probe_inv (st st1 : DriverState) (hinv : BinderInv st)
    (pDevice : BT_INTEGRATED_DEVICE) (createOk : Bool) (win : LPC11xx_I2C_REGS)
    (pErrorGiven : Bool) (res : ProbeResult)
    (h : i2c_probe pDevice createOk win pErrorGiven st = some (res, st1)) : BinderInv st1 := by
  unfold i2c_probe at h
  cases hE : BT_GetIntegratedResource pDevice BT_RESOURCE_ENUM 0 with
  | none =>
    simp only [hE, probeFail, Option.some.injEq, Prod.mk.injEq] at h
    rw [← h.2]; exact hinv
  | some pResource =>
    simp only [hE] at h
    cases hT : st.g_I2C_HANDLES[pResource.ulStart]? with
    | none => simp [hT] at h
    | some slot =>
      cases slot with
      | some x =>
        simp only [hT, probeFail, Option.some.injEq, Prod.mk.injEq] at h
        rw [← h.2]; exact hinv
      | none =>
        simp only [hT] at h
        cases createOk with
        | false =>
          simp only [↓reduceIte, probeFail, Option.some.injEq, Prod.mk.injEq] at h
          rw [← h.2]; exact hinv
        | true =>
          simp only [Bool.true_eq_false, ↓reduceIte] at h
          cases hM : BT_GetIntegratedResource pDevice BT_RESOURCE_MEM 0 with
          | none =>
            simp only [hM, probeFail, Option.some.injEq, Prod.mk.injEq] at h
            rw [← h.2]
            exact binderInv_set_free st hinv pResource.ulStart hT st.rcc
          | some mem =>
            simp only [hM, i2cSetPowerState, enablei2cPeripheralClock, hE] at h
            have hidx : pResource.ulStart < st.g_I2C_HANDLES.length := by
              by_contra hcon
              rw [List.getElem?_eq_none (by omega)] at hT
              cases hT
            have key : ∀ rcc1 : LPC11xx_RCC_REGS,
                (match BT_GetIntegratedResource pDevice BT_RESOURCE_IRQ 0 with
                  | none => probeFail pErrorGiven BT_ERR_GENERIC
                      { st with next := st.next + 1,
                                g_I2C_HANDLES :=
                                  st.g_I2C_HANDLES.set pResource.ulStart (some st.next),
                                rcc := rcc1 }
                  | some _ =>
                    some ({ hI2C := some st.next, pError := none },
                      { st with next := st.next + 1,
                                g_I2C_HANDLES :=
                                  st.g_I2C_HANDLES.set pResource.ulStart (some st.next),
                                rcc := rcc1,
                                heap := st.heap ++ [(st.next,
                                  ResetI2C { pRegs := mem.ulStart, regs := win,
                                             pDevice := pDevice,
                                             eMode := BT_I2C_MODE_POLLED,
                                             hRxFifo := none, hTxFifo := none })] }))
                  = some (res, st1) → BinderInv st1 := by
              intro rcc1 hk
              have hbase := binderInv_set_free st hinv pResource.ulStart hT rcc1
              cases hI : BT_GetIntegratedResource pDevice BT_RESOURCE_IRQ 0 with
              | none =>
                simp only [hI, probeFail, Option.some.injEq, Prod.mk.injEq] at hk
                rw [← hk.2]; exact hbase
              | some irq =>
                simp only [hI, Option.some.injEq, Prod.mk.injEq] at hk
                rw [← hk.2]
                refine { len := hbase.len, slot := ?_, nodup := ?_ }
                · intro h o hm
                  simp only [List.mem_append, List.mem_singleton, Prod.mk.injEq] at hm
                  rcases hm with hm | ⟨hh, ho⟩
                  · exact hbase.slot h o hm
                  · subst hh ho
                    refine ⟨Nat.lt_succ_self _, pResource.ulStart, ?_, ?_, ?_⟩
                    · simp [enumIndex, ResetI2C, hE]
                    · simp only
                      rw [List.getElem?_set_self hidx]
                    · simp [ResetI2C, hI]
                · simp only [List.map_append, List.map_cons, List.map_nil]
                  rw [List.nodup_append]
                  refine ⟨hinv.nodup, List.nodup_singleton _, ?_⟩
                  intro k hk1 hk2
                  simp only [List.mem_singleton] at hk2
                  subst hk2
                  simp only [List.mem_map] at hk1
                  obtain ⟨p, hp, hpk⟩ := hk1
                  have := (hinv.slot p.1 p.2 hp).1
                  omega
            cases hz : pResource.ulStart with
            | zero =>
              simp only [hz, Option.map_some'] at h
              rw [hz] at key
              exact key _ h
            | succ n =>
              simp only [hz, Option.map_some'] at h
              rw [hz] at key
              exact key _ h

/-- A handle that has an object is allocated. -/
theorem obj_mem (st : DriverState) (h : Nat) (o : BT_OPAQUE_HANDLE)
    (ho : st.obj h = some o) : (h, o) ∈ st.heap := by
  unfold DriverState.obj at ho
  cases hf : st.heap.find? (fun p => p.1 = h) with
  | none => simp [hf] at ho
  | some p =>
    simp only [hf, Option.map_some', Option.some.injEq] at ho
    have hp := List.find?_some hf
    have hm := List.mem_of_find?_eq_some hf
    simp only [decide_eq_true_eq] at hp
    obtain ⟨p1, p2⟩ := p
    simp only at hp ho
    subst hp ho
    exact hm

/-- Under the invariant the object of a live handle is found. -/
theorem obj_of_mem (st : DriverState) (hinv : BinderInv st) (h : Nat) (o : BT_OPAQUE_HANDLE)
    (hm : (h, o) ∈ st.heap) : st.obj h = some o := by
  cases ho : st.obj h with
  | none =>
    unfold DriverState.obj at ho
    simp only [Option.map_eq_none', List.find?_eq_none, decide_eq_true_eq] at ho
    exact absurd rfl (ho (h, o) hm)
  | some o2 =>
    have := obj_mem st h o2 ho
    rw [obj_unique st.heap hinv.nodup h o o2 hm this]

/-- Function `BT_CloseHandle` of a live instance: it returns `BT_ERR_NONE`, empties the
slot of the instance's enumeration index and releases the handle. -/
theorem BT_CloseHandle_live (st : DriverState) (hinv : BinderInv st) (h i : Nat)
    (o : BT_OPAQUE_HANDLE) (hm : (h, o) ∈ st.heap) (hi : enumIndex o.pDevice = some i) :
    ∃ rcc1 closed1 irqs,
      BT_CloseHandle h st = some (BT_ERR_NONE,
        { st with
            heap := (st.heap.map (fun p => if p.1 = h then (h, ResetI2C o) else p)).filter
                      (fun p => p.1 ≠ h),
            rcc := rcc1, closed := closed1, irqDisabled := irqs,
            g_I2C_HANDLES := st.g_I2C_HANDLES.set i none }) := by
  obtain ⟨_, j, hj, hslot, hirq⟩ := hinv.slot h o hm
  rw [hi] at hj
  cases hj
  unfold enumIndex at hi
  cases hE : BT_GetIntegratedResource o.pDevice BT_RESOURCE_ENUM 0 with
  | none => simp [hE] at hi
  | some pResource =>
    simp only [hE, Option.map_some', Option.some.injEq] at hi
    obtain ⟨irq, hI⟩ := Option.isSome_iff_exists.mp hirq
    have hidx : i < st.g_I2C_HANDLES.length := by
      by_contra hcon
      rw [List.getElem?_eq_none (by omega)] at hslot
      cases hslot
    unfold BT_CloseHandle i2cCleanup
    rw [obj_of_mem st hinv h o hm]
    simp only [disablei2cPeripheralClock, ResetI2C, hE, hI, hi]
    cases i with
    | zero => simp only [hidx, ↓reduceIte]; exact ⟨_, _, _, rfl⟩
    | succ n => simp only [hidx, ↓reduceIte]; exact ⟨_, _, _, rfl⟩

/-- Function `BT_CloseHandle` is defined only for allocated handles. -/
theorem BT_CloseHandle_defined (st : DriverState) (h : Nat) (x : BT_ERROR × DriverState)
    (hc : BT_CloseHandle h st = some x) : ∃ o, (h, o) ∈ st.heap := by
  unfold BT_CloseHandle i2cCleanup at hc
  cases ho : st.obj h with
  | none => simp [ho] at hc
  | some o => exact ⟨o, obj_mem st h o ho⟩

/-- Function `BT_CloseHandle` keeps the binder invariant. -/
theorem BT_CloseHandle_inv (st st1 : DriverState) (hinv : BinderInv st) (h : Nat)
    (E : BT_ERROR) (hc : BT_CloseHandle h st = some (E, st1)) : BinderInv st1 := by
  obtain ⟨o, hm⟩ := BT_CloseHandle_defined st h _ hc
  obtain ⟨_, i, hi, hslot, _⟩ := hinv.slot h o hm
  obtain ⟨rcc1, closed1, irqs, hres⟩ := BT_CloseHandle_live st hinv h i o hm hi
  rw [hres] at hc
  simp only [Option.some.injEq, Prod.mk.injEq] at hc
  rw [← hc.2]
  have hmem : ∀ h2 o2,
      (h2, o2) ∈ (st.heap.map (fun p => if p.1 = h then (h, ResetI2C o) else p)).filter
        (fun p => p.1 ≠ h) → h2 ≠ h ∧ (h2, o2) ∈ st.heap := by
    intro h2 o2 hin
    simp only [ne_eq, decide_not, List.mem_filter, List.mem_map, Bool.not_eq_eq_eq_not,
      Bool.not_true, decide_eq_false_iff_not] at hin
    obtain ⟨⟨p, hp, hpe⟩, hne⟩ := hin
    refine ⟨hne, ?_⟩
    by_cases hk : p.1 = h
    · simp only [hk, ↓reduceIte, Prod.mk.injEq] at hpe
      exact absurd hpe.1.symm hne
    · simp only [hk, ↓reduceIte] at hpe
      rw [← hpe]; exact hp
  refine { len := by simp [hinv.len], slot := ?_, nodup := ?_ }
  · intro h2 o2 hin
    obtain ⟨hne, hin2⟩ := hmem h2 o2 hin
    obtain ⟨hlt, j, hj, hslot2, hirq⟩ := hinv.slot h2 o2 hin2
    refine ⟨hlt, j, hj, ?_, hirq⟩
    have hij : i ≠ j := by
      intro he
      rw [he, hslot2] at hslot
      simp only [Option.some.injEq] at hslot
      exact hne hslot
    simp only
    rw [List.getElem?_set_ne hij]
    exact hslot2
  · have hsub : List.Sublist
        (((st.heap.map (fun p => if p.1 = h then (h, ResetI2C o) else p)).filter
          (fun p => p.1 ≠ h)).map Prod.fst) (st.heap.map Prod.fst) := by
      have h1 : (st.heap.map (fun p => if p.1 = h then (h, ResetI2C o) else p)).map Prod.fst
          = st.heap.map Prod.fst := by
        rw [List.map_map]
        apply List.map_congr_left
        intro p _
        by_cases hk : p.1 = h
        · simp [hk]
        · simp [hk]
      rw [← h1]
      exact List.Sublist.map _ (List.filter_sublist _)
    exact hinv.nodup.sublist hsub

/-- Every state reached by a defined sequence of calls satisfies the
invariant. -/
theorem runCalls_inv (calls : List BinderCall) :
    ∀ (st st1 : DriverState), BinderInv st → runCalls calls st = some st1 → BinderInv st1 := by
  induction calls with
  | nil =>
    intro st st1 hinv h
    simp only [runCalls, Option.some.injEq] at h
    rw [← h]; exact hinv
  | cons c cs ih =>
    intro st st1 hinv h
    simp only [runCalls] at h
    cases hs : c.step st with
    | none => simp [hs] at h
    | some st2 =>
      simp only [hs] at h
      refine ih st2 st1 ?_ h
      cases c with
      | bind pDevice createOk win pErrorGiven =>
        simp only [BinderCall.step, Option.map_eq_some', Prod.exists, exists_eq_right] at hs
        obtain ⟨res, hs⟩ := hs
        exact i2c_probe_inv st st2 hinv pDevice createOk win pErrorGiven res hs
      | cleanup hI2C =>
        simp only [BinderCall.step, Option.map_eq_some', Prod.exists, exists_eq_right] at hs
        obtain ⟨E, hs⟩ := hs
        exact BT_CloseHandle_inv st st2 hinv hI2C E hs

/-- Function `i2c_probe` on an occupied slot: `NULL`, `BT_ERR_GENERIC`, nothing changed. -/
theorem i2c_probe_occupied (st : DriverState) (pDevice : BT_INTEGRATED_DEVICE)
    (createOk : Bool) (win : LPC11xx_I2C_REGS) (pErrorGiven : Bool) (i x : Nat)
    (hi : enumIndex pDevice = some i) (hs : st.g_I2C_HANDLES[i]? = some (some x)) :
    i2c_probe pDevice createOk win pErrorGiven st =
      some ({ hI2C := none,
              pError := if pErrorGiven then some BT_ERR_GENERIC else none }, st) := by
  unfold enumIndex at hi
  cases hE : BT_GetIntegratedResource pDevice BT_RESOURCE_ENUM 0 with
  | none => simp [hE] at hi
  | some pResource =>
    simp only [hE, Option.map_some', Option.some.injEq] at hi
    unfold i2c_probe
    simp only [hE, hi, hs, probeFail]

/-- Function `i2c_probe` of a complete descriptor on a free slot, when the handle
allocator succeeds: the new handle is returned and is live in its slot. -/
theorem i2c_probe_free (st : DriverState) (pDevice : BT_INTEGRATED_DEVICE)
    (win : LPC11xx_I2C_REGS) (pErrorGiven : Bool) (i : Nat)
    (hi : enumIndex pDevice = some i) (hc : completeDescriptor pDevice)
    (hs : st.g_I2C_HANDLES[i]? = some none) :
    ∃ st2 o2, i2c_probe pDevice true win pErrorGiven st
        = some ({ hI2C := some st.next, pError := none }, st2) ∧
      (st.next, o2) ∈ st2.heap ∧ enumIndex o2.pDevice = some i ∧
      st2.g_I2C_HANDLES[i]? = some (some st.next) ∧
      o2.eMode = BT_I2C_MODE_POLLED ∧ o2.hRxFifo = none ∧ o2.hTxFifo = none := by
  obtain ⟨hM, _, hI⟩ := hc
  obtain ⟨mem, hM⟩ := Option.isSome_iff_exists.mp hM
  obtain ⟨irq, hI⟩ := Option.isSome_iff_exists.mp hI
  have hi0 := hi
  unfold enumIndex at hi
  cases hE : BT_GetIntegratedResource pDevice BT_RESOURCE_ENUM 0 with
  | none => simp [hE] at hi
  | some pResource =>
    simp only [hE, Option.map_some', Option.some.injEq] at hi
    have hidx : i < st.g_I2C_HANDLES.length := by
      by_contra hcon
      rw [List.getElem?_eq_none (by omega)] at hs
      cases hs
    unfold i2c_probe
    simp only [hE, hi, hs, hM, hI, i2cSetPowerState, enablei2cPeripheralClock,
      Bool.true_eq_false, ↓reduceIte]
    cases i with
    | zero =>
      simp only [Option.map_some']
      refine ⟨_, ResetI2C { pRegs := mem.ulStart, regs := win, pDevice := pDevice,
                            eMode := BT_I2C_MODE_POLLED, hRxFifo := none, hTxFifo := none },
        rfl, ?_, ?_, ?_, rfl, rfl, rfl⟩
      · simp
      · simpa [ResetI2C] using hi0
      · simp only; rw [List.getElem?_set_self hidx]
    | succ n =>
      simp only [Option.map_some']
      refine ⟨_, ResetI2C { pRegs := mem.ulStart, regs := win, pDevice := pDevice,
                            eMode := BT_I2C_MODE_POLLED, hRxFifo := none, hTxFifo := none },
        rfl, ?_, ?_, ?_, rfl, rfl, rfl⟩
      · simp
      · simpa [ResetI2C] using hi0
      · simp only; rw [List.getElem?_set_self hidx]

/-- Function `i2c_probe` is defined for every descriptor whose enumeration index, if it
has one, lies within the table. -/
theorem i2c_probe_defined (st : DriverState) (hlen : st.g_I2C_HANDLES.length = 3)
    (pDevice : BT_INTEGRATED_DEVICE) (createOk : Bool) (win : LPC11xx_I2C_REGS)
    (pErrorGiven : Bool) (hin : ∀ i, enumIndex pDevice = some i → i < 3) :
    ∃ x, i2c_probe pDevice createOk win pErrorGiven st = some x := by
  unfold i2c_probe
  cases hE : BT_GetIntegratedResource pDevice BT_RESOURCE_ENUM 0 with
  | none => exact ⟨_, rfl⟩
  | some pResource =>
    have hlt : pResource.ulStart < st.g_I2C_HANDLES.length := by
      rw [hlen]; exact hin _ (by simp [enumIndex, hE])
    simp only [List.getElem?_eq_getElem hlt]
    cases st.g_I2C_HANDLES[pResource.ulStart] with
    | some x => exact ⟨_, rfl⟩
    | none =>
      cases createOk with
      | false => exact ⟨_, rfl⟩
      | true =>
        simp only [Bool.true_eq_false, ↓reduceIte]
        cases hM : BT_GetIntegratedResource pDevice BT_RESOURCE_MEM 0 with
        | none => exact ⟨_, rfl⟩
        | some mem =>
          simp only [i2cSetPowerState, enablei2cPeripheralClock, hE]
          cases hI : BT_GetIntegratedResource pDevice BT_RESOURCE_IRQ 0 with
          | none =>
            cases pResource.ulStart <;> exact ⟨_, rfl⟩
          | some irq =>
            cases pResource.ulStart <;> exact ⟨_, rfl⟩

/-- C1. Single-owner index (`i2c_probe` / `i2cCleanup` over `g_I2C_HANDLES`):
in every state reached from the empty table by a sequence of bind and cleanup
calls, (a) two live instances with the same enumeration index are the same
instance, and a live instance sits in the slot of its index; (b) a bind whose
descriptor's index already holds a live instance returns `NULL`, stores
`BT_ERR_GENERIC` (which is not `BT_ERR_NONE`) through `pError` and leaves the
whole driver state unchanged; (c) cleanup of the instance bound at `i` returns
`BT_ERR_NONE` and empties slot `i`, and a following bind of a complete
descriptor for `i` returns a new instance that is live in slot `i`; (d) a bind
is defined whenever the descriptor's index lies within the three-entry table. -/
theorem C1_single_owner (calls : List BinderCall) (st : DriverState)
    (hrun : runCalls calls DriverState.init = some st) :
    (∀ i h1 o1 h2 o2, st.liveAt i h1 o1 → st.liveAt i h2 o2 → h1 = h2 ∧ o1 = o2) ∧
    (∀ i h o, st.liveAt i h o → st.g_I2C_HANDLES[i]? = some (some h)) ∧
    (∀ pDevice createOk win pErrorGiven i h o,
      enumIndex pDevice = some i → st.liveAt i h o →
      i2c_probe pDevice createOk win pErrorGiven st =
        some ({ hI2C := none,
                pError := if pErrorGiven then some BT_ERR_GENERIC else none }, st) ∧
      BT_ERR_GENERIC ≠ BT_ERR_NONE) ∧
    (∀ pDevice win pErrorGiven i h o,
      st.liveAt i h o → enumIndex pDevice = some i → completeDescriptor pDevice →
      ∃ st1, BT_CloseHandle h st = some (BT_ERR_NONE, st1) ∧
        st1.g_I2C_HANDLES[i]? = some none ∧
        ∃ h2 st2 o2, i2c_probe pDevice true win pErrorGiven st1
            = some ({ hI2C := some h2, pError := none }, st2) ∧
          st2.liveAt i h2 o2 ∧ st2.g_I2C_HANDLES[i]? = some (some h2)) ∧
    (∀ pDevice createOk win pErrorGiven,
      (∀ i, enumIndex pDevice = some i → i < 3) →
      ∃ x, i2c_probe pDevice createOk win pErrorGiven st = some x) := by
  have hinv : BinderInv st := runCalls_inv calls _ _ binderInv_init hrun
  have hslot : ∀ i h o, st.liveAt i h o → st.g_I2C_HANDLES[i]? = some (some h) := by
    intro i h o ⟨hm, hi⟩
    obtain ⟨_, j, hj, hs, _⟩ := hinv.slot h o hm
    rw [hi] at hj
    cases hj
    exact hs
  refine ⟨?_, hslot, ?_, ?_, ?_⟩
  · intro i h1 o1 h2 o2 hl1 hl2
    have e1 := hslot i h1 o1 hl1
    have e2 := hslot i h2 o2 hl2
    rw [e1] at e2
    simp only [Option.some.injEq] at e2
    subst e2
    exact ⟨rfl, obj_unique st.heap hinv.nodup h1 o1 o2 hl1.1 hl2.1⟩
  · intro pDevice createOk win pErrorGiven i h o hi hl
    exact ⟨i2c_probe_occupied st pDevice createOk win pErrorGiven i h hi (hslot i h o hl),
      by decide⟩
  · intro pDevice win pErrorGiven i h o hl hi hc
    obtain ⟨rcc1, closed1, irqs, hres⟩ := BT_CloseHandle_live st hinv h i o hl.1 hl.2
    have hidx : i < st.g_I2C_HANDLES.length := by
      have := hslot i h o hl
      by_contra hcon
      rw [List.getElem?_eq_none (by omega)] at this
      cases this
    obtain ⟨st1, hst1, htab⟩ : ∃ st1, BT_CloseHandle h st = some (BT_ERR_NONE, st1) ∧
        st1.g_I2C_HANDLES = st.g_I2C_HANDLES.set i none := ⟨_, hres, rfl⟩
    have hfree : st1.g_I2C_HANDLES[i]? = some none := by
      rw [htab]; exact List.getElem?_set_self hidx
    obtain ⟨st2, o2, hp, hm2, hi2, hs2, _⟩ :=
      i2c_probe_free st1 pDevice win pErrorGiven i hi hc hfree
    exact ⟨st1, hst1, hfree, _, st2, o2, hp, ⟨hm2, hi2⟩, hs2⟩
  · intro pDevice createOk win pErrorGiven hin
    exact i2c_probe_defined st hinv.len pDevice createOk win pErrorGiven hin

/-- C1, witness: after binding unit 0 from start-up, instance 1 is live at
index 0, a second bind of the same descriptor is refused with
`BT_ERR_GENERIC`, and after cleanup the slot is free again. -/
theorem C1_single_owner_witness :
    runCalls [BinderCall.bind (oLPC11xx_i2c0_device 0x4000) true (LPC11xx_I2C_REGS.init []) true]
      DriverState.init = some boundUnit0 ∧
    boundUnit0.liveAt 0 1 (ResetI2C (polledHandle [])) ∧
    (i2c_probe (oLPC11xx_i2c0_device 0x4000) true (LPC11xx_I2C_REGS.init []) true
      boundUnit0).map (fun p => p.1) = some { hI2C := none, pError := some BT_ERR_GENERIC } ∧
    (BT_CloseHandle 1 boundUnit0).map (fun p => p.2.g_I2C_HANDLES) = some [none, none, none] ∧
    (∀ i h1 o1 h2 o2, boundUnit0.liveAt i h1 o1 → boundUnit0.liveAt i h2 o2 →
      h1 = h2 ∧ o1 = o2) :=
  ⟨by decide, ⟨by decide, by decide⟩, by decide, by decide,
   (C1_single_owner
     [BinderCall.bind (oLPC11xx_i2c0_device 0x4000) true (LPC11xx_I2C_REGS.init []) true]
     boundUnit0 (by decide)).1⟩

/-! ## Protocol engine: auxiliary facts -/

/-- A wait with a completion pending. -/
theorem waitSI_cons (r : LPC11xx_I2C_REGS) (e : HwEvent) (es : List HwEvent)
    (h : r.pending = e :: es) :
    r.waitSI = some { r with LPC11xx_I2C_STAT := e.stat, LPC11xx_I2C_DAT := e.dat,
                             pending := es, log := r.log ++ [BusOp.waitSI] } := by
  simp [LPC11xx_I2C_REGS.waitSI, h]

/-- A completed wait consumed the head of `pending`. -/
theorem waitSI_some (r r1 : LPC11xx_I2C_REGS) (h : r.waitSI = some r1) :
    ∃ e es, r.pending = e :: es ∧
      r1 = { r with LPC11xx_I2C_STAT := e.stat, LPC11xx_I2C_DAT := e.dat,
                    pending := es, log := r.log ++ [BusOp.waitSI] } := by
  unfold LPC11xx_I2C_REGS.waitSI at h
  split at h
  · cases h
  · next e es he =>
    refine ⟨e, es, he, ?_⟩
    cases h
    rfl

/-- A wait completes exactly when a completion is pending. -/
theorem waitSI_isSome (r : LPC11xx_I2C_REGS) : r.waitSI.isSome = true ↔ r.pending ≠ [] := by
  unfold LPC11xx_I2C_REGS.waitSI
  split <;> simp_all

/-- Function `i2cStart` with a completion pending. -/
theorem i2cStart_cons (r : LPC11xx_I2C_REGS) (e : HwEvent) (es : List HwEvent)
    (h : r.pending = e :: es) :
    ∃ Error r1, i2cStart r = some (Error, r1) ∧ r1.log = r.log ++ startTrace ∧
      r1.pending = es ∧
      (Error = BT_ERR_NONE ↔ (e.stat = LPC11xx_I2C_STAT_START_TRANSMITTED ∨
        e.stat = LPC11xx_I2C_STAT_REPEAT_START_TRANSMITTED)) := by
  simp only [i2cStart, LPC11xx_I2C_REGS.wr, LPC11xx_I2C_REGS.waitSI, h]
  refine ⟨_, _, rfl, ?_, rfl, ?_⟩
  · simp [startTrace]
  · simp only
    split_ifs with hc
    · simp; tauto
    · simp; tauto

/-- A byte is not changed by the 32-bit store. -/
theorem byte_mod_U32 (b : Nat) : b % 256 % U32 = b % 256 := by
  have hU : U32 = 4294967296 := by decide
  rw [hU]
  omega

/-- What `i2cStart` does when it returns. -/
theorem i2cStart_some (r r1 : LPC11xx_I2C_REGS) (Error : BT_ERROR)
    (h : i2cStart r = some (Error, r1)) :
    r1.log = r.log ++ startTrace ∧ (Error = BT_ERR_NONE ∨ Error = MINUS_ONE) ∧
    ∃ e, r.pending = e :: r1.pending ∧
      (Error = BT_ERR_NONE ↔ (e.stat = LPC11xx_I2C_STAT_START_TRANSMITTED ∨
        e.stat = LPC11xx_I2C_STAT_REPEAT_START_TRANSMITTED)) := by
  cases hp : r.pending with
  | nil => simp [i2cStart, LPC11xx_I2C_REGS.wr, LPC11xx_I2C_REGS.waitSI, hp] at h
  | cons e es =>
    simp only [i2cStart, LPC11xx_I2C_REGS.wr, LPC11xx_I2C_REGS.waitSI, hp, Option.pure_def,
      Option.bind_eq_bind, Option.some_bind, Option.some.injEq, Prod.mk.injEq] at h
    obtain ⟨hE, hr⟩ := h
    subst hr
    refine ⟨by simp [startTrace], ?_, e, rfl, ?_⟩
    · rw [← hE]; split_ifs <;> simp
    · rw [← hE]; split_ifs with hc
      · simp; tauto
      · simp; tauto

/-- Function `i2cStart` returns exactly when a completion is pending. -/
theorem i2cStart_isSome (r : LPC11xx_I2C_REGS) (h : r.pending ≠ []) :
    ∃ Error r1, i2cStart r = some (Error, r1) := by
  cases hp : r.pending with
  | nil => exact absurd hp h
  | cons e es =>
    simp [i2cStart, LPC11xx_I2C_REGS.wr, LPC11xx_I2C_REGS.waitSI, hp]

/-- What `i2cSendAddress` does when it returns. -/
theorem i2cSendAddress_some (r r1 : LPC11xx_I2C_REGS) (ulAddress : Nat)
    (eAccessMode : BT_I2C_ACCESS_MODE) (Error : BT_ERROR)
    (h : i2cSendAddress r ulAddress eAccessMode = some (Error, r1)) :
    r1.log = r.log ++ addressTrace (((ulAddress <<< 1) ||| eAccessMode.val) % U32) ∧
    (Error = BT_ERR_NONE ∨ Error = MINUS_ONE) ∧
    ∃ e, r.pending = e :: r1.pending ∧
      (Error = BT_ERR_NONE ↔ (e.stat = LPC11xx_I2C_STAT_ADDRESS_W_ACK ∨
        e.stat = LPC11xx_I2C_STAT_ADDRESS_R_ACK)) := by
  cases hp : r.pending with
  | nil =>
    simp [i2cSendAddress, LPC11xx_I2C_REGS.wr, LPC11xx_I2C_REGS.wrDAT,
      LPC11xx_I2C_REGS.waitSI, hp] at h
  | cons e es =>
    simp only [i2cSendAddress, LPC11xx_I2C_REGS.wr, LPC11xx_I2C_REGS.wrDAT,
      LPC11xx_I2C_REGS.waitSI, hp, Option.pure_def,
      Option.bind_eq_bind, Option.some_bind, Option.some.injEq, Prod.mk.injEq] at h
    obtain ⟨hE, hr⟩ := h
    subst hr
    refine ⟨by simp [addressTrace], ?_, e, rfl, ?_⟩
    · rw [← hE]; split_ifs <;> simp
    · rw [← hE]; split_ifs with hc
      · simp; tauto
      · simp; tauto

/-- Function `i2cSendAddress` returns when a completion is pending. -/
theorem i2cSendAddress_isSome (r : LPC11xx_I2C_REGS) (ulAddress : Nat)
    (eAccessMode : BT_I2C_ACCESS_MODE) (h : r.pending ≠ []) :
    ∃ Error r1, i2cSendAddress r ulAddress eAccessMode = some (Error, r1) := by
  cases hp : r.pending with
  | nil => exact absurd hp h
  | cons e es =>
    simp [i2cSendAddress, LPC11xx_I2C_REGS.wr, LPC11xx_I2C_REGS.wrDAT,
      LPC11xx_I2C_REGS.waitSI, hp]

/-- The log after `i2cStop`. -/
theorem i2cStop_log (r : LPC11xx_I2C_REGS) : (i2cStop r).2.log = r.log ++ stopTrace := by
  simp [i2cStop, LPC11xx_I2C_REGS.wr, stopTrace]

/-- Function `i2cStop` returns `BT_ERR_NONE`. -/
theorem i2cStop_err (r : LPC11xx_I2C_REGS) : (i2cStop r).1 = BT_ERR_NONE := rfl

/-- What the loop of `i2cSendData` does when it returns: it stores every byte,
consumes one completion per byte, and `Error` becomes `-1` as soon as one of
them is not "data write acknowledged". -/
theorem i2cSendDataLoop_some (bs : List Nat) :
    ∀ (r r1 : LPC11xx_I2C_REGS) (E E1 : BT_ERROR),
      i2cSendDataLoop bs r E = some (E1, r1) →
      r1.log = r.log ++ sendTrace (bs.map (fun b => b % 256)) ∧
      ∃ evs, evs.length = bs.length ∧ r.pending = evs ++ r1.pending ∧
        E1 = if allDataWAck evs then E else MINUS_ONE := by
  induction bs with
  | nil =>
    intro r r1 E E1 h
    simp only [i2cSendDataLoop, Option.some.injEq, Prod.mk.injEq] at h
    obtain ⟨hE, hr⟩ := h
    subst hr
    exact ⟨by simp [sendTrace], [], rfl, rfl, by simp [allDataWAck, hE]⟩
  | cons b bs ih =>
    intro r r1 E E1 h
    cases hp : r.pending with
    | nil =>
      simp [i2cSendDataLoop, LPC11xx_I2C_REGS.wr, LPC11xx_I2C_REGS.wrDAT,
        LPC11xx_I2C_REGS.waitSI, hp] at h
    | cons e es =>
      simp only [i2cSendDataLoop, LPC11xx_I2C_REGS.wr, LPC11xx_I2C_REGS.wrDAT,
        LPC11xx_I2C_REGS.waitSI, hp] at h
      obtain ⟨hlog, evs, hlen, hpend, hE⟩ := ih _ _ _ _ h
      refine ⟨?_, e :: evs, by simp [hlen], ?_, ?_⟩
      · rw [hlog]; simp [sendTrace, byte_mod_U32]
      · simpa using hpend
      · rw [hE]
        simp only [allDataWAck, List.all_cons]
        by_cases hs : e.stat = LPC11xx_I2C_STAT_DATA_W_ACK
        · simp [hs]
        · simp [hs]

/-- The loop of `i2cSendData` returns when one completion per byte is pending. -/
theorem i2cSendDataLoop_isSome (bs : List Nat) :
    ∀ (r : LPC11xx_I2C_REGS) (E : BT_ERROR), bs.length ≤ r.pending.length →
      ∃ E1 r1, i2cSendDataLoop bs r E = some (E1, r1) := by
  induction bs with
  | nil => intro r E _; exact ⟨E, r, rfl⟩
  | cons b bs ih =>
    intro r E hlen
    cases hp : r.pending with
    | nil => simp [hp] at hlen
    | cons e es =>
      simp only [i2cSendDataLoop, LPC11xx_I2C_REGS.wr, LPC11xx_I2C_REGS.wrDAT,
        LPC11xx_I2C_REGS.waitSI, hp]
      apply ih
      simp only [hp, List.length_cons] at hlen
      simpa using hlen

/-- The acknowledge setting chosen in the loop body of `i2cGetData`. -/
theorem ackChoice_log (n : Nat) (r : LPC11xx_I2C_REGS) :
    (if n ≠ 0 then (i2cSendAck r).2 else (i2cSendNack r).2).log ++ [BusOp.waitSI]
      = r.log ++ (if n ≠ 0 then ackByteTrace else nackByteTrace) ∧
    (if n ≠ 0 then (i2cSendAck r).2 else (i2cSendNack r).2).pending = r.pending := by
  by_cases h : n = 0
  · simp [h, i2cSendNack, LPC11xx_I2C_REGS.wr, nackByteTrace]
  · simp [h, i2cSendAck, LPC11xx_I2C_REGS.wr, ackByteTrace]

/-- What the loop of `i2cGetData` does when it returns: one acknowledge
setting, one wait and one stored byte per iteration; `Error` becomes `-1` as
soon as one completion is not "data write acknowledged". -/
theorem i2cGetDataLoop_some (n : Nat) :
    ∀ (r r1 : LPC11xx_I2C_REGS) (E E1 : BT_ERROR) (dest dest1 : List Nat),
      i2cGetDataLoop n r E dest = some (E1, dest1, r1) →
      r1.log = r.log ++ getTrace n ∧
      ∃ evs, evs.length = n ∧ r.pending = evs ++ r1.pending ∧
        dest1 = dest ++ evs.map (fun e => e.dat % 256) ∧
        E1 = if allDataWAck evs then E else MINUS_ONE := by
  induction n with
  | zero =>
    intro r r1 E E1 dest dest1 h
    simp only [i2cGetDataLoop, Option.some.injEq, Prod.mk.injEq] at h
    obtain ⟨hE, hd, hr⟩ := h
    subst hr
    exact ⟨by simp [getTrace], [], rfl, rfl, by simp [hd], by simp [allDataWAck, hE]⟩
  | succ n ih =>
    intro r r1 E E1 dest dest1 h
    obtain ⟨hclog, hcpend⟩ := ackChoice_log n r
    unfold i2cGetDataLoop at h
    generalize (if n ≠ 0 then (i2cSendAck r).2 else (i2cSendNack r).2) = c at h hclog hcpend
    cases hp : r.pending with
    | nil =>
      rw [hp] at hcpend
      simp [LPC11xx_I2C_REGS.waitSI, hcpend] at h
    | cons e es =>
      rw [hp] at hcpend
      simp only [LPC11xx_I2C_REGS.waitSI, hcpend] at h
      obtain ⟨hlog, evs, hlen, hpend, hdest, hE⟩ := ih _ _ _ _ _ _ h
      refine ⟨?_, e :: evs, by simp [hlen], ?_, ?_, ?_⟩
      · rw [hlog]
        simp only [getTrace]
        rw [hclog, List.append_assoc]
      · simpa using hpend
      · rw [hdest]; simp
      · rw [hE]
        simp only [allDataWAck, List.all_cons]
        by_cases hs : e.stat = LPC11xx_I2C_STAT_DATA_W_ACK
        · simp [hs]
        · simp [hs]

/-- The loop of `i2cGetData` returns when one completion per byte is pending. -/
theorem i2cGetDataLoop_isSome (n : Nat) :
    ∀ (r : LPC11xx_I2C_REGS) (E : BT_ERROR) (dest : List Nat), n ≤ r.pending.length →
      ∃ E1 dest1 r1, i2cGetDataLoop n r E dest = some (E1, dest1, r1) := by
  induction n with
  | zero => intro r E dest _; exact ⟨E, dest, r, rfl⟩
  | succ n ih =>
    intro r E dest hlen
    obtain ⟨_, hcpend⟩ := ackChoice_log n r
    cases hp : r.pending with
    | nil => simp [hp] at hlen
    | cons e es =>
      rw [hp] at hcpend
      unfold i2cGetDataLoop
      generalize (if n ≠ 0 then (i2cSendAck r).2 else (i2cSendNack r).2) = c at hcpend
      simp only [LPC11xx_I2C_REGS.waitSI, hcpend]
      apply ih
      simp only [hp, List.length_cons] at hlen
      simpa using hlen

/-- No access of the Start, Address or data phases sets `STO`. -/
theorem startTrace_noStop : ∀ op ∈ startTrace, op.setsSTO = false := by decide

/-- The Address phase does not set `STO`. -/
theorem addressTrace_noStop (v : Nat) : ∀ op ∈ addressTrace v, op.setsSTO = false := by
  intro op h
  simp only [addressTrace, List.mem_cons, List.mem_singleton, List.not_mem_nil, or_false] at h
  rcases h with h | h | h <;> subst h <;> rfl

/-- The write data phase does not set `STO`. -/
theorem sendTrace_noStop (bs : List Nat) : ∀ op ∈ sendTrace bs, op.setsSTO = false := by
  induction bs with
  | nil => intro op h; simp [sendTrace] at h
  | cons b bs ih =>
    intro op h
    simp only [sendTrace, List.cons_append, List.nil_append, List.mem_cons] at h
    rcases h with h | h | h | h
    · subst h; rfl
    · subst h; rfl
    · subst h; rfl
    · exact ih op h

/-- The read data phase does not set `STO`. -/
theorem getTrace_noStop (n : Nat) : ∀ op ∈ getTrace n, op.setsSTO = false := by
  induction n with
  | zero => intro op h; simp [getTrace] at h
  | succ n ih =>
    intro op h
    simp only [getTrace, List.mem_append] at h
    rcases h with h | h
    · by_cases hn : n = 0
      · simp only [hn, ne_eq, not_true_eq_false, ↓reduceIte, nackByteTrace, List.mem_cons,
          List.mem_singleton, List.not_mem_nil, or_false] at h
        rcases h with h | h | h <;> subst h <;> rfl
      · simp only [hn, ne_eq, not_false_eq_true, ↓reduceIte, ackByteTrace, List.mem_cons,
          List.mem_singleton, List.not_mem_nil, or_false] at h
        rcases h with h | h | h <;> subst h <;> rfl
    · exact ih op h

/-- What a polled `i2cWrite` does when it returns.  Either the address phase
failed and the call went to `err_out`, or the data phase ran over all bytes. -/
theorem i2cWrite_polled_some (hI2C h2 : BT_OPAQUE_HANDLE) (ucDevice : Nat) (bs : List Nat)
    (E : BT_ERROR) (hm : hI2C.eMode = BT_I2C_MODE_POLLED)
    (hr : i2cWrite hI2C ucDevice bs = some (E, h2)) :
    ∃ e0 e1 rest, hI2C.regs.pending = e0 :: e1 :: rest ∧
      ((¬ (e1.stat = LPC11xx_I2C_STAT_ADDRESS_W_ACK ∨ e1.stat = LPC11xx_I2C_STAT_ADDRESS_R_ACK) ∧
          E = MINUS_ONE ∧ h2.regs.pending = rest ∧
          h2.regs.log = hI2C.regs.log ++
            (startTrace ++ addressTrace ((((ucDevice % 256) <<< 1) ||| 0) % U32)) ++ stopTrace) ∨
       ((e1.stat = LPC11xx_I2C_STAT_ADDRESS_W_ACK ∨ e1.stat = LPC11xx_I2C_STAT_ADDRESS_R_ACK) ∧
          ∃ evs, evs.length = bs.length ∧ rest = evs ++ h2.regs.pending ∧
            E = (if allDataWAck evs then BT_ERR_NONE else MINUS_ONE) ∧
            h2.regs.log = hI2C.regs.log ++
              (startTrace ++ addressTrace ((((ucDevice % 256) <<< 1) ||| 0) % U32)
                ++ sendTrace (bs.map (fun b => b % 256))) ++ stopTrace)) := by
  unfold i2cWrite at hr
  rw [hm] at hr
  simp only [Option.bind_eq_bind, Option.pure_def] at hr
  cases hs : i2cStart hI2C.regs with
  | none => simp [hs] at hr
  | some p0 =>
    obtain ⟨E0, r1⟩ := p0
    obtain ⟨hlog1, _, e0, hp0, _⟩ := i2cStart_some _ _ _ hs
    simp only [hs, Option.some_bind] at hr
    cases ha : i2cSendAddress r1 (ucDevice % 256) BT_I2C_WRITE_ACCESS with
    | none => simp [ha] at hr
    | some p1 =>
      obtain ⟨E1, r2⟩ := p1
      obtain ⟨hlog2, hE1, e1, hp1, hack⟩ := i2cSendAddress_some _ _ _ _ _ ha
      simp only [ha, Option.some_bind] at hr
      refine ⟨e0, e1, r2.pending, by rw [hp0, hp1], ?_⟩
      by_cases hE : E1 = BT_ERR_NONE
      · right
        refine ⟨hack.mp hE, ?_⟩
        simp only [hE, ne_eq, not_true_eq_false, ↓reduceIte] at hr
        cases hd : i2cSendData r2 bs with
        | none => simp [hd] at hr
        | some p2 =>
          obtain ⟨E2, r3⟩ := p2
          obtain ⟨hlog3, evs, hlen, hpend, hE2⟩ := i2cSendDataLoop_some _ _ _ _ _ hd
          simp only [hd, Option.some_bind] at hr
          have hres : E = E2 ∧ h2.regs = (i2cStop r3).2 := by
            by_cases hE2n : E2 = BT_ERR_NONE
            · simp only [hE2n, ne_eq, not_true_eq_false, ↓reduceIte, Option.some.injEq,
                Prod.mk.injEq, i2cStop_err] at hr
              obtain ⟨hEE, hh⟩ := hr
              subst hh
              exact ⟨by rw [← hEE, hE2n], rfl⟩
            · simp only [hE2n, ne_eq, not_false_eq_true, ↓reduceIte, Option.some.injEq,
                Prod.mk.injEq] at hr
              obtain ⟨hEE, hh⟩ := hr
              subst hh
              exact ⟨hEE.symm, rfl⟩
          refine ⟨evs, hlen, ?_, ?_, ?_⟩
          · rw [hres.2]
            simpa [i2cStop, LPC11xx_I2C_REGS.wr] using hpend
          · rw [hres.1, hE2]
          · rw [hres.2, i2cStop_log, hlog3, hlog2, hlog1]
            simp [BT_I2C_ACCESS_MODE.val, List.append_assoc]
      · left
        simp only [hE, ne_eq, not_false_eq_true, ↓reduceIte, Option.some.injEq,
          Prod.mk.injEq] at hr
        obtain ⟨hEE, hh⟩ := hr
        subst hh
        refine ⟨fun hc => hE (hack.mpr hc), ?_, ?_, ?_⟩
        · rcases hE1 with h | h
          · exact absurd h hE
          · rw [← hEE, h]
        · simp [i2cStop, LPC11xx_I2C_REGS.wr]
        · simp only [i2cStop_log, hlog2, hlog1]
          simp [BT_I2C_ACCESS_MODE.val, List.append_assoc]

/-- What a polled `i2cRead` does when it returns.  Either the address phase
failed and the call went to `err_out`, or the data phase ran over all bytes. -/
theorem i2cRead_polled_some (hI2C h2 : BT_OPAQUE_HANDLE) (ucDevice ulLength : Nat)
    (dest : List Nat) (E : BT_ERROR) (hm : hI2C.eMode = BT_I2C_MODE_POLLED)
    (hr : i2cRead hI2C ucDevice ulLength = some (E, dest, h2)) :
    ∃ e0 e1 rest, hI2C.regs.pending = e0 :: e1 :: rest ∧
      ((¬ (e1.stat = LPC11xx_I2C_STAT_ADDRESS_W_ACK ∨ e1.stat = LPC11xx_I2C_STAT_ADDRESS_R_ACK) ∧
          E = MINUS_ONE ∧ dest = [] ∧ h2.regs.pending = rest ∧
          h2.regs.log = hI2C.regs.log ++
            (startTrace ++ addressTrace ((((ucDevice % 256) <<< 1) ||| 1) % U32)) ++ stopTrace) ∨
       ((e1.stat = LPC11xx_I2C_STAT_ADDRESS_W_ACK ∨ e1.stat = LPC11xx_I2C_STAT_ADDRESS_R_ACK) ∧
          ∃ evs, evs.length = ulLength ∧ rest = evs ++ h2.regs.pending ∧
            dest = evs.map (fun e => e.dat % 256) ∧
            E = (if allDataWAck evs then BT_ERR_NONE else MINUS_ONE) ∧
            h2.regs.log = hI2C.regs.log ++
              (startTrace ++ addressTrace ((((ucDevice % 256) <<< 1) ||| 1) % U32)
                ++ getTrace ulLength) ++ stopTrace)) := by
  unfold i2cRead at hr
  rw [hm] at hr
  simp only [Option.bind_eq_bind, Option.pure_def] at hr
  cases hs : i2cStart hI2C.regs with
  | none => simp [hs] at hr
  | some p0 =>
    obtain ⟨E0, r1⟩ := p0
    obtain ⟨hlog1, _, e0, hp0, _⟩ := i2cStart_some _ _ _ hs
    simp only [hs, Option.some_bind] at hr
    cases ha : i2cSendAddress r1 (ucDevice % 256) BT_I2C_READ_ACCESS with
    | none => simp [ha] at hr
    | some p1 =>
      obtain ⟨E1, r2⟩ := p1
      obtain ⟨hlog2, hE1, e1, hp1, hack⟩ := i2cSendAddress_some _ _ _ _ _ ha
      simp only [ha, Option.some_bind] at hr
      refine ⟨e0, e1, r2.pending, by rw [hp0, hp1], ?_⟩
      by_cases hE : E1 = BT_ERR_NONE
      · right
        refine ⟨hack.mp hE, ?_⟩
        simp only [hE, ne_eq, not_true_eq_false, ↓reduceIte] at hr
        cases hd : i2cGetData r2 ulLength with
        | none => simp [hd] at hr
        | some p2 =>
          obtain ⟨E2, dest2, r3⟩ := p2
          obtain ⟨hlog3, evs, hlen, hpend, hdest, hE2⟩ := i2cGetDataLoop_some _ _ _ _ _ _ _ hd
          simp only [hd, Option.some_bind] at hr
          have hres : E = E2 ∧ dest = dest2 ∧ h2.regs = (i2cStop r3).2 := by
            by_cases hE2n : E2 = BT_ERR_NONE
            · simp only [hE2n, ne_eq, not_true_eq_false, ↓reduceIte, Option.some.injEq,
                Prod.mk.injEq, i2cStop_err] at hr
              obtain ⟨hEE, hdd, hh⟩ := hr
              subst hh
              exact ⟨by rw [← hEE, hE2n], hdd.symm, rfl⟩
            · simp only [hE2n, ne_eq, not_false_eq_true, ↓reduceIte, Option.some.injEq,
                Prod.mk.injEq] at hr
              obtain ⟨hEE, hdd, hh⟩ := hr
              subst hh
              exact ⟨hEE.symm, hdd.symm, rfl⟩
          refine ⟨evs, hlen, ?_, ?_, ?_, ?_⟩
          · rw [hres.2.2]
            simpa [i2cStop, LPC11xx_I2C_REGS.wr] using hpend
          · rw [hres.2.1, hdest]; simp
          · rw [hres.1, hE2]
          · rw [hres.2.2, i2cStop_log, hlog3, hlog2, hlog1]
            simp [BT_I2C_ACCESS_MODE.val, List.append_assoc]
      · left
        simp only [hE, ne_eq, not_false_eq_true, ↓reduceIte, Option.some.injEq,
          Prod.mk.injEq] at hr
        obtain ⟨hEE, hdd, hh⟩ := hr
        subst hh
        refine ⟨fun hc => hE (hack.mpr hc), ?_, hdd.symm, ?_, ?_⟩
        · rcases hE1 with h | h
          · exact absurd h hE
          · rw [← hEE, h]
        · simp [i2cStop, LPC11xx_I2C_REGS.wr]
        · simp only [i2cStop_log, hlog2, hlog1]
          simp [BT_I2C_ACCESS_MODE.val, List.append_assoc]

/-- A polled `i2cWrite` returns when the hardware completes every wait: one
completion each for Start and Address and one per byte. -/
theorem i2cWrite_polled_isSome (hI2C : BT_OPAQUE_HANDLE) (ucDevice : Nat) (bs : List Nat)
    (hm : hI2C.eMode = BT_I2C_MODE_POLLED) (hlen : bs.length + 2 ≤ hI2C.regs.pending.length) :
    ∃ E h2, i2cWrite hI2C ucDevice bs = some (E, h2) := by
  unfold i2cWrite
  rw [hm]
  simp only [Option.bind_eq_bind, Option.pure_def]
  obtain ⟨E0, r1, hs⟩ := i2cStart_isSome hI2C.regs (by
    intro h; rw [h] at hlen; simp at hlen)
  obtain ⟨_, _, e0, hp0, _⟩ := i2cStart_some _ _ _ hs
  obtain ⟨E1, r2, ha⟩ := i2cSendAddress_isSome r1 (ucDevice % 256) BT_I2C_WRITE_ACCESS (by
    intro h; rw [hp0, h] at hlen; simp at hlen)
  obtain ⟨_, _, e1, hp1, _⟩ := i2cSendAddress_some _ _ _ _ _ ha
  simp only [hs, ha, Option.some_bind]
  by_cases hE : E1 = BT_ERR_NONE
  · simp only [hE, ne_eq, not_true_eq_false, ↓reduceIte]
    obtain ⟨E2, r3, hd⟩ := i2cSendDataLoop_isSome bs r2 BT_ERR_NONE (by
      rw [hp0, hp1] at hlen; simp at hlen; omega)
    have hd2 : i2cSendData r2 bs = some (E2, r3) := hd
    simp only [hd2, Option.some_bind]
    split_ifs <;> exact ⟨_, _, rfl⟩
  · simp only [hE, ne_eq, not_false_eq_true, ↓reduceIte]
    exact ⟨_, _, rfl⟩

/-- A polled `i2cRead` returns when the hardware completes every wait. -/
theorem i2cRead_polled_isSome (hI2C : BT_OPAQUE_HANDLE) (ucDevice ulLength : Nat)
    (hm : hI2C.eMode = BT_I2C_MODE_POLLED) (hlen : ulLength + 2 ≤ hI2C.regs.pending.length) :
    ∃ E dest h2, i2cRead hI2C ucDevice ulLength = some (E, dest, h2) := by
  unfold i2cRead
  rw [hm]
  simp only [Option.bind_eq_bind, Option.pure_def]
  obtain ⟨E0, r1, hs⟩ := i2cStart_isSome hI2C.regs (by
    intro h; rw [h] at hlen; simp at hlen)
  obtain ⟨_, _, e0, hp0, _⟩ := i2cStart_some _ _ _ hs
  obtain ⟨E1, r2, ha⟩ := i2cSendAddress_isSome r1 (ucDevice % 256) BT_I2C_READ_ACCESS (by
    intro h; rw [hp0, h] at hlen; simp at hlen)
  obtain ⟨_, _, e1, hp1, _⟩ := i2cSendAddress_some _ _ _ _ _ ha
  simp only [hs, ha, Option.some_bind]
  by_cases hE : E1 = BT_ERR_NONE
  · simp only [hE, ne_eq, not_true_eq_false, ↓reduceIte]
    obtain ⟨E2, dest2, r3, hd⟩ := i2cGetDataLoop_isSome ulLength r2 BT_ERR_NONE [] (by
      rw [hp0, hp1] at hlen; simp at hlen; omega)
    have hd2 : i2cGetData r2 ulLength = some (E2, dest2, r3) := hd
    simp only [hd2, Option.some_bind]
    split_ifs <;> exact ⟨_, _, _, rfl⟩
  · simp only [hE, ne_eq, not_false_eq_true, ↓reduceIte]
    exact ⟨_, _, _, rfl⟩

/-- Function `datWrites` distributes over concatenation. -/
theorem datWrites_append (xs ys : List BusOp) :
    datWrites (xs ++ ys) = datWrites xs ++ datWrites ys := by
  induction xs with
  | nil => rfl
  | cons x xs ih => cases x <;> simp [datWrites, ih]

/-- The write data phase stores exactly its bytes. -/
theorem datWrites_sendTrace (bs : List Nat) : datWrites (sendTrace bs) = bs := by
  induction bs with
  | nil => rfl
  | cons b bs ih => simp [sendTrace, datWrites, ih]

/-- Bytes are fixed by `% 256`. -/
theorem map_mod256 (bs : List Nat) (hb : ∀ b ∈ bs, b < 256) :
    bs.map (fun b => b % 256) = bs := by
  induction bs with
  | nil => rfl
  | cons b bs ih =>
    simp only [List.map_cons, List.cons.injEq]
    exact ⟨Nat.mod_eq_of_lt (hb b (List.mem_cons_self _ _)),
      ih (fun x hx => hb x (List.mem_cons_of_mem _ hx))⟩

/-- Every nominal write completion is "data write acknowledged". -/
theorem allDataWAck_nominal (ds : List Nat) : allDataWAck (nominalWriteEvents ds) = true := by
  simp [allDataWAck, nominalWriteEvents]

/-- The address byte of a 7-bit address fits the data register. -/
theorem addrByte_small (a bit : Nat) (ha : a < 128) (hbit : bit ≤ 1) :
    (((a % 256) <<< 1) ||| bit) % U32 = (a <<< 1) ||| bit := by
  have hU : U32 = 4294967296 := by decide
  have h1 : a % 256 = a := Nat.mod_eq_of_lt (by omega)
  rw [h1, hU]
  apply Nat.mod_eq_of_lt
  have h2 : a <<< 1 < 2 ^ 8 := by
    rw [Nat.shiftLeft_eq]; omega
  have h3 : bit < 2 ^ 8 := by omega
  have := Nat.or_lt_two_pow h2 h3
  omega

/-- C2. Nominal polled write (`i2cWrite`): for an instance in Polled mode, a
7-bit address `a` and bytes `bs`, when the hardware completes Start with
"start transmitted", the address with "address+write acknowledged" and every
byte with "data write acknowledged", the call returns `BT_ERR_NONE`; the
accesses it makes are Start, the address byte `(a << 1) | 0`, one data phase per
byte and a final Stop, so that the values stored to the data register are
exactly `(a << 1) | 0` followed by `bs` in order. -/
theorem C2_nominal_write (hI2C : BT_OPAQUE_HANDLE) (a : Nat) (bs ds : List Nat) (d0 d1 : Nat)
    (rest : List HwEvent)
    (hm : hI2C.eMode = BT_I2C_MODE_POLLED) (ha : a < 128) (hb : ∀ b ∈ bs, b < 256)
    (hds : ds.length = bs.length)
    (hp : hI2C.regs.pending =
      { stat := LPC11xx_I2C_STAT_START_TRANSMITTED, dat := d0 } ::
      { stat := LPC11xx_I2C_STAT_ADDRESS_W_ACK, dat := d1 } ::
      (nominalWriteEvents ds ++ rest)) :
    ∃ h2, i2cWrite hI2C a bs = some (BT_ERR_NONE, h2) ∧
      h2.regs.log = hI2C.regs.log ++
        (startTrace ++ addressTrace ((a <<< 1) ||| 0) ++ sendTrace bs) ++ stopTrace ∧
      datWrites h2.regs.log = datWrites hI2C.regs.log ++ ((a <<< 1) ||| 0) :: bs ∧
      h2.regs.pending = rest := by
  have hlen : bs.length + 2 ≤ hI2C.regs.pending.length := by
    rw [hp]; simp [nominalWriteEvents, hds]
  obtain ⟨E, h2, hr⟩ := i2cWrite_polled_isSome hI2C a bs hm hlen
  obtain ⟨e0, e1, rest1, hp1, hcase⟩ := i2cWrite_polled_some hI2C h2 a bs E hm hr
  rw [hp] at hp1
  simp only [List.cons.injEq] at hp1
  obtain ⟨_, he1, hrest⟩ := hp1
  subst he1
  rcases hcase with ⟨hnack, _⟩ | ⟨_, evs, hevl, hevs, hE, hlog⟩
  · exact absurd (Or.inl rfl) hnack
  · rw [← hrest] at hevs
    have hl : (nominalWriteEvents ds).length = evs.length := by
      simp [nominalWriteEvents, hds, hevl]
    obtain ⟨h1, h2p⟩ := List.append_inj hevs hl
    rw [← h1, allDataWAck_nominal] at hE
    simp only [↓reduceIte] at hE
    subst hE
    rw [addrByte_small a 0 ha (by omega), map_mod256 bs hb] at hlog
    refine ⟨h2, hr, hlog, ?_, h2p.symm⟩
    rw [hlog]
    simp [datWrites_append, datWrites_sendTrace, startTrace, addressTrace, stopTrace, datWrites]

/-- C2, witness: writing the three bytes 0x11, 0x22, 0x33 to address 0x50
stores the address byte 0xA0 and then the three bytes, ends with Stop and
returns `BT_ERR_NONE`. -/
theorem C2_nominal_write_witness :
    (0x50 <<< 1) ||| 0 = 0xA0 ∧
    ∃ h2, i2cWrite (polledHandle
        ({ stat := LPC11xx_I2C_STAT_START_TRANSMITTED, dat := 0 } ::
         { stat := LPC11xx_I2C_STAT_ADDRESS_W_ACK, dat := 0 } ::
         (nominalWriteEvents [0, 0, 0] ++ []))) 0x50 [0x11, 0x22, 0x33]
        = some (BT_ERR_NONE, h2) ∧
      h2.regs.log = (polledHandle
        ({ stat := LPC11xx_I2C_STAT_START_TRANSMITTED, dat := 0 } ::
         { stat := LPC11xx_I2C_STAT_ADDRESS_W_ACK, dat := 0 } ::
         (nominalWriteEvents [0, 0, 0] ++ []))).regs.log ++
        (startTrace ++ addressTrace ((0x50 <<< 1) ||| 0) ++ sendTrace [0x11, 0x22, 0x33])
          ++ stopTrace ∧
      datWrites h2.regs.log = datWrites (polledHandle
        ({ stat := LPC11xx_I2C_STAT_START_TRANSMITTED, dat := 0 } ::
         { stat := LPC11xx_I2C_STAT_ADDRESS_W_ACK, dat := 0 } ::
         (nominalWriteEvents [0, 0, 0] ++ []))).regs.log
          ++ ((0x50 <<< 1) ||| 0) :: [0x11, 0x22, 0x33] ∧
      h2.regs.pending = [] :=
  ⟨by decide,
   C2_nominal_write _ 0x50 [0x11, 0x22, 0x33] [0, 0, 0] 0 0 [] rfl (by decide) (by decide) rfl
     rfl⟩

/-- A nominal read data phase of at least one byte never consists of "data
write acknowledged" completions only. -/
theorem allDataWAck_nominalRead (ds : List Nat) (h : ds ≠ []) :
    allDataWAck (nominalReadEvents ds) = false := by
  cases ds with
  | nil => exact absurd rfl h
  | cons d ds =>
    cases ds with
    | nil =>
      have : decide (STAT_DATA_R_NACK = LPC11xx_I2C_STAT_DATA_W_ACK) = false := by decide
      simp [nominalReadEvents, allDataWAck, this]
    | cons d2 ds =>
      have : decide (LPC11xx_I2C_STAT_DATA_R_ACK = LPC11xx_I2C_STAT_DATA_W_ACK) = false := by
        decide
      simp [nominalReadEvents, allDataWAck, this]

/-- The nominal read completions are one per byte. -/
theorem nominalReadEvents_length (ds : List Nat) : (nominalReadEvents ds).length = ds.length := by
  induction ds with
  | nil => rfl
  | cons d ds ih =>
    cases ds with
    | nil => rfl
    | cons d2 ds => simp only [nominalReadEvents, List.length_cons] at ih ⊢; omega

/-- The data bytes of the nominal read completions. -/
theorem nominalReadEvents_dat (ds : List Nat) :
    (nominalReadEvents ds).map (fun e => e.dat % 256) = ds.map (fun d => d % 256) := by
  induction ds with
  | nil => rfl
  | cons d ds ih =>
    cases ds with
    | nil => rfl
    | cons d2 ds => simp only [nominalReadEvents, List.map_cons] at ih ⊢; rw [ih]

/-- Every nominal polled read of at least one byte returns `-1`: the address
byte `(a << 1) | 1` is stored, the destination holds the received bytes and
Stop is issued, but `i2cGetData` compares each status with
`LPC11xx_I2C_STAT_DATA_W_ACK`. -/
theorem nominal_read_returns_error (hI2C : BT_OPAQUE_HANDLE) (a : Nat) (ds : List Nat)
    (d0 d1 : Nat) (rest : List HwEvent)
    (hm : hI2C.eMode = BT_I2C_MODE_POLLED) (ha : a < 128) (hd : ∀ d ∈ ds, d < 256)
    (hN : ds ≠ [])
    (hp : hI2C.regs.pending =
      { stat := LPC11xx_I2C_STAT_START_TRANSMITTED, dat := d0 } ::
      { stat := LPC11xx_I2C_STAT_ADDRESS_R_ACK, dat := d1 } ::
      (nominalReadEvents ds ++ rest)) :
    ∃ h2, i2cRead hI2C a ds.length = some (MINUS_ONE, ds, h2) ∧
      h2.regs.log = hI2C.regs.log ++
        (startTrace ++ addressTrace ((a <<< 1) ||| 1) ++ getTrace ds.length) ++ stopTrace := by
  have hlen : ds.length + 2 ≤ hI2C.regs.pending.length := by
    rw [hp]; simp [nominalReadEvents_length]
  obtain ⟨E, dest, h2, hr⟩ := i2cRead_polled_isSome hI2C a ds.length hm hlen
  obtain ⟨e0, e1, rest1, hp1, hcase⟩ := i2cRead_polled_some hI2C h2 a ds.length dest E hm hr
  rw [hp] at hp1
  simp only [List.cons.injEq] at hp1
  obtain ⟨_, he1, hrest⟩ := hp1
  subst he1
  rcases hcase with ⟨hnack, _⟩ | ⟨_, evs, hevl, hevs, hdest, hE, hlog⟩
  · exact absurd (Or.inr rfl) hnack
  · rw [← hrest] at hevs
    have hl : (nominalReadEvents ds).length = evs.length := by
      rw [nominalReadEvents_length, hevl]
    obtain ⟨h1, _⟩ := List.append_inj hevs hl
    rw [← h1, allDataWAck_nominalRead ds hN] at hE
    rw [← h1, nominalReadEvents_dat, map_mod256 ds hd] at hdest
    simp only [Bool.false_eq_true, ↓reduceIte] at hE
    subst hE hdest
    rw [addrByte_small a 1 ha (by omega)] at hlog
    exact ⟨h2, hr, hlog⟩

/-- C3, evaluation at the failing input: a polled read of 2 bytes from address
0x50 with the nominal statuses (start transmitted, address+read acknowledged,
"data received, ACK sent", "data received, NACK sent") stores the address byte
0xA1 and the two received bytes 0xAB, 0xCD, but returns `-1` (`MINUS_ONE`)
instead of `BT_ERR_NONE`. -/
theorem C3_nominal_read_returns_error :
    (i2cRead (polledHandle
        [ { stat := LPC11xx_I2C_STAT_START_TRANSMITTED, dat := 0 },
          { stat := LPC11xx_I2C_STAT_ADDRESS_R_ACK, dat := 0 },
          { stat := LPC11xx_I2C_STAT_DATA_R_ACK, dat := 0xAB },
          { stat := STAT_DATA_R_NACK, dat := 0xCD } ]) 0x50 2).map
      (fun p => (p.1, p.2.1, datWrites p.2.2.regs.log))
      = some (MINUS_ONE, [0xAB, 0xCD], [0xA1]) := by
  decide


/-- A trace without Stop followed by the Stop phase sets `STO` exactly once. -/
theorem countP_stop (pre : List BusOp) (h : ∀ op ∈ pre, op.setsSTO = false) :
    List.countP BusOp.setsSTO (pre ++ stopTrace) = 1 := by
  rw [List.countP_append]
  have h0 : List.countP BusOp.setsSTO pre = 0 := by
    rw [List.countP_eq_zero]
    intro op hop
    simp [h op hop]
  rw [h0]
  decide

/-- No access before the Stop phase of a polled transfer sets `STO`. -/
theorem noStop_append {xs ys : List BusOp} (hx : ∀ op ∈ xs, op.setsSTO = false)
    (hy : ∀ op ∈ ys, op.setsSTO = false) : ∀ op ∈ xs ++ ys, op.setsSTO = false := by
  intro op h
  rcases List.mem_append.mp h with h | h
  · exact hx op h
  · exact hy op h

/-- C4. Stop is always issued (`i2cRead`, `i2cWrite` in Polled mode): for every
target address, length and sequence of hardware statuses, a call that returns
(its waits complete) returns `BT_ERR_NONE` or the bus error `-1`, and in both
cases the accesses it made are a Stop-free prefix followed by the Stop phase
(`CONSET |= STO; CONCLR = SI`), so that `STO` is set exactly once, at the end.
The call does return when one completion per phase is pending. -/
theorem C4_stop_always_issued (hI2C : BT_OPAQUE_HANDLE) (ucDevice ulLength : Nat)
    (bs : List Nat) (hm : hI2C.eMode = BT_I2C_MODE_POLLED) :
    (∀ E dest h2, i2cRead hI2C ucDevice ulLength = some (E, dest, h2) →
      (E = BT_ERR_NONE ∨ E = MINUS_ONE) ∧
      ∃ pre, h2.regs.log = hI2C.regs.log ++ pre ++ stopTrace ∧
        (∀ op ∈ pre, op.setsSTO = false) ∧
        List.countP BusOp.setsSTO (pre ++ stopTrace) = 1) ∧
    (∀ E h2, i2cWrite hI2C ucDevice bs = some (E, h2) →
      (E = BT_ERR_NONE ∨ E = MINUS_ONE) ∧
      ∃ pre, h2.regs.log = hI2C.regs.log ++ pre ++ stopTrace ∧
        (∀ op ∈ pre, op.setsSTO = false) ∧
        List.countP BusOp.setsSTO (pre ++ stopTrace) = 1) ∧
    (ulLength + 2 ≤ hI2C.regs.pending.length →
      ∃ E dest h2, i2cRead hI2C ucDevice ulLength = some (E, dest, h2)) ∧
    (bs.length + 2 ≤ hI2C.regs.pending.length →
      ∃ E h2, i2cWrite hI2C ucDevice bs = some (E, h2)) := by
  refine ⟨?_, ?_, i2cRead_polled_isSome hI2C ucDevice ulLength hm,
    i2cWrite_polled_isSome hI2C ucDevice bs hm⟩
  · intro E dest h2 hr
    obtain ⟨e0, e1, rest, _, hcase⟩ := i2cRead_polled_some hI2C h2 ucDevice ulLength dest E hm hr
    rcases hcase with ⟨_, hE, _, _, hlog⟩ | ⟨_, evs, _, _, _, hE, hlog⟩
    · have hpre := noStop_append startTrace_noStop
        (addressTrace_noStop ((((ucDevice % 256) <<< 1) ||| 1) % U32))
      exact ⟨Or.inr hE, _, hlog, hpre, countP_stop _ hpre⟩
    · have hpre := noStop_append (noStop_append startTrace_noStop
        (addressTrace_noStop ((((ucDevice % 256) <<< 1) ||| 1) % U32)))
        (getTrace_noStop ulLength)
      refine ⟨?_, _, hlog, hpre, countP_stop _ hpre⟩
      rw [hE]; split_ifs <;> simp
  · intro E h2 hr
    obtain ⟨e0, e1, rest, _, hcase⟩ := i2cWrite_polled_some hI2C h2 ucDevice bs E hm hr
    rcases hcase with ⟨_, hE, _, hlog⟩ | ⟨_, evs, _, _, hE, hlog⟩
    · have hpre := noStop_append startTrace_noStop
        (addressTrace_noStop ((((ucDevice % 256) <<< 1) ||| 0) % U32))
      exact ⟨Or.inr hE, _, hlog, hpre, countP_stop _ hpre⟩
    · have hpre := noStop_append (noStop_append startTrace_noStop
        (addressTrace_noStop ((((ucDevice % 256) <<< 1) ||| 0) % U32)))
        (sendTrace_noStop (bs.map (fun b => b % 256)))
      refine ⟨?_, _, hlog, hpre, countP_stop _ hpre⟩
      rw [hE]; split_ifs <;> simp

/-- C4, witness: a polled instance whose address phase is not acknowledged
(status 0x20), for a 2-byte read and a 2-byte write to 0x50. -/
theorem C4_stop_always_issued_witness :
    (polledHandle [ { stat := 0x08, dat := 0 }, { stat := 0x20, dat := 0 } ]).eMode
      = BT_I2C_MODE_POLLED ∧
    (i2cWrite (polledHandle [ { stat := 0x08, dat := 0 }, { stat := 0x20, dat := 0 } ])
      0x50 [1, 2]).map (fun p => (p.1, p.2.regs.log))
      = some (MINUS_ONE, startTrace ++ addressTrace 0xA0 ++ stopTrace) ∧
    ((∀ E dest h2,
        i2cRead (polledHandle [ { stat := 0x08, dat := 0 }, { stat := 0x20, dat := 0 } ])
          0x50 2 = some (E, dest, h2) →
        (E = BT_ERR_NONE ∨ E = MINUS_ONE) ∧
        ∃ pre, h2.regs.log =
            (polledHandle [ { stat := 0x08, dat := 0 }, { stat := 0x20, dat := 0 } ]).regs.log
              ++ pre ++ stopTrace ∧
          (∀ op ∈ pre, op.setsSTO = false) ∧
          List.countP BusOp.setsSTO (pre ++ stopTrace) = 1) ∧
     (∀ E h2,
        i2cWrite (polledHandle [ { stat := 0x08, dat := 0 }, { stat := 0x20, dat := 0 } ])
          0x50 [1, 2] = some (E, h2) →
        (E = BT_ERR_NONE ∨ E = MINUS_ONE) ∧
        ∃ pre, h2.regs.log =
            (polledHandle [ { stat := 0x08, dat := 0 }, { stat := 0x20, dat := 0 } ]).regs.log
              ++ pre ++ stopTrace ∧
          (∀ op ∈ pre, op.setsSTO = false) ∧
          List.countP BusOp.setsSTO (pre ++ stopTrace) = 1) ∧
     (2 + 2 ≤ (polledHandle
          [ { stat := 0x08, dat := 0 }, { stat := 0x20, dat := 0 } ]).regs.pending.length →
        ∃ E dest h2,
          i2cRead (polledHandle [ { stat := 0x08, dat := 0 }, { stat := 0x20, dat := 0 } ])
            0x50 2 = some (E, dest, h2)) ∧
     ([1, 2].length + 2 ≤ (polledHandle
          [ { stat := 0x08, dat := 0 }, { stat := 0x20, dat := 0 } ]).regs.pending.length →
        ∃ E h2,
          i2cWrite (polledHandle [ { stat := 0x08, dat := 0 }, { stat := 0x20, dat := 0 } ])
            0x50 [1, 2] = some (E, h2))) :=
  ⟨rfl, by decide,
   C4_stop_always_issued
     (polledHandle [ { stat := 0x08, dat := 0 }, { stat := 0x20, dat := 0 } ]) 0x50 2 [1, 2] rfl⟩

/-- Function `ackSettings` distributes over concatenation. -/
theorem ackSettings_append (xs ys : List BusOp) :
    ackSettings (xs ++ ys) = ackSettings xs ++ ackSettings ys := by
  induction xs with
  | nil => rfl
  | cons x xs ih =>
    cases x with
    | CONSET m =>
      by_cases hm : CtlBit.AA ∈ m <;> simp [ackSettings, hm, ih]
    | CONCLR m =>
      by_cases hm : CtlBit.AA ∈ m <;> simp [ackSettings, hm, ih]
    | DAT v => simpa [ackSettings] using ih
    | SCLH v => simpa [ackSettings] using ih
    | SCLL v => simpa [ackSettings] using ih
    | waitSI => simpa [ackSettings] using ih

/-- The read data phase for `k + 1` bytes is `k` ACK bytes and one NACK byte. -/
theorem getTrace_succ (k : Nat) :
    getTrace (k + 1) = repeatTrace k ackByteTrace ++ nackByteTrace := by
  induction k with
  | zero => simp [getTrace, repeatTrace]
  | succ k ih =>
    rw [getTrace, ih]
    simp [repeatTrace]

/-- The acknowledge settings of `k` ACK bytes. -/
theorem ackSettings_repeat (k : Nat) :
    ackSettings (repeatTrace k ackByteTrace) = List.replicate k true := by
  induction k with
  | zero => rfl
  | succ k ih =>
    rw [repeatTrace, ackSettings_append, ih]
    rfl

/-- The acknowledge settings of the read data phase. -/
theorem ackSettings_getTrace (k : Nat) :
    ackSettings (getTrace (k + 1)) = List.replicate k true ++ [false] := by
  rw [getTrace_succ, ackSettings_append, ackSettings_repeat]
  rfl

/-- C5. Last-byte NACK (`i2cGetData`, also as run by a polled `i2cRead`): for
every length `N ≥ 1` whose waits complete, the data phase consists of `N - 1`
byte phases that each set `AA` once (ACK after receive) before their wait,
followed by one byte phase that clears `AA` once (NACK) before its wait; the
acknowledge settings it makes are `N - 1` ACKs followed by one NACK.  A polled
`i2cRead` that returns has either stopped after an unacknowledged address
without any acknowledge setting, or made exactly these settings. -/
theorem C5_last_byte_nack (pRegs : LPC11xx_I2C_REGS) (N : Nat) (hN : 1 ≤ N)
    (hlen : N ≤ pRegs.pending.length) :
    (∃ E dest r1, i2cGetData pRegs N = some (E, dest, r1) ∧
      r1.log = pRegs.log ++ (repeatTrace (N - 1) ackByteTrace ++ nackByteTrace) ∧
      ackSettings r1.log = ackSettings pRegs.log ++ (List.replicate (N - 1) true ++ [false])) ∧
    (∀ (hI2C h2 : BT_OPAQUE_HANDLE) (ucDevice : Nat) (E : BT_ERROR) (dest : List Nat),
      hI2C.eMode = BT_I2C_MODE_POLLED →
      i2cRead hI2C ucDevice N = some (E, dest, h2) →
      ackSettings h2.regs.log = ackSettings hI2C.regs.log ∨
      ackSettings h2.regs.log
        = ackSettings hI2C.regs.log ++ (List.replicate (N - 1) true ++ [false])) := by
  obtain ⟨k, rfl⟩ : ∃ k, N = k + 1 := ⟨N - 1, by omega⟩
  constructor
  · obtain ⟨E, dest, r1, hr⟩ := i2cGetDataLoop_isSome (k + 1) pRegs BT_ERR_NONE [] hlen
    obtain ⟨hlog, _⟩ := i2cGetDataLoop_some _ _ _ _ _ _ _ hr
    refine ⟨E, dest, r1, hr, ?_, ?_⟩
    · rw [hlog, getTrace_succ]; rfl
    · rw [hlog, ackSettings_append, ackSettings_getTrace]; rfl
  · intro hI2C h2 ucDevice E dest hm hr
    obtain ⟨e0, e1, rest, _, hcase⟩ := i2cRead_polled_some hI2C h2 ucDevice (k + 1) dest E hm hr
    rcases hcase with ⟨_, _, _, _, hlog⟩ | ⟨_, evs, _, _, _, _, hlog⟩
    · left
      rw [hlog]
      simp [ackSettings_append, startTrace, addressTrace, stopTrace, ackSettings]
    · right
      rw [hlog]
      simp only [ackSettings_append, ackSettings_getTrace]
      simp [startTrace, addressTrace, stopTrace, ackSettings]

/-- C5, witness: a 3-byte data phase makes the settings ACK, ACK, NACK. -/
theorem C5_last_byte_nack_witness :
    (i2cGetData (LPC11xx_I2C_REGS.init
        [ { stat := 0x50, dat := 1 }, { stat := 0x50, dat := 2 }, { stat := 0x58, dat := 3 } ])
      3).map (fun p => ackSettings p.2.2.log) = some [true, true, false] ∧
    ((∃ E dest r1, i2cGetData (LPC11xx_I2C_REGS.init
        [ { stat := 0x50, dat := 1 }, { stat := 0x50, dat := 2 }, { stat := 0x58, dat := 3 } ])
        3 = some (E, dest, r1) ∧
      r1.log = (LPC11xx_I2C_REGS.init
        [ { stat := 0x50, dat := 1 }, { stat := 0x50, dat := 2 },
          { stat := 0x58, dat := 3 } ]).log
          ++ (repeatTrace (3 - 1) ackByteTrace ++ nackByteTrace) ∧
      ackSettings r1.log = ackSettings (LPC11xx_I2C_REGS.init
        [ { stat := 0x50, dat := 1 }, { stat := 0x50, dat := 2 },
          { stat := 0x58, dat := 3 } ]).log
          ++ (List.replicate (3 - 1) true ++ [false])) ∧
    (∀ (hI2C h2 : BT_OPAQUE_HANDLE) (ucDevice : Nat) (E : BT_ERROR) (dest : List Nat),
      hI2C.eMode = BT_I2C_MODE_POLLED →
      i2cRead hI2C ucDevice 3 = some (E, dest, h2) →
      ackSettings h2.regs.log = ackSettings hI2C.regs.log ∨
      ackSettings h2.regs.log
        = ackSettings hI2C.regs.log ++ (List.replicate (3 - 1) true ++ [false]))) :=
  ⟨by decide,
   C5_last_byte_nack (LPC11xx_I2C_REGS.init
     [ { stat := 0x50, dat := 1 }, { stat := 0x50, dat := 2 }, { stat := 0x58, dat := 3 } ])
     3 (by decide) (by decide)⟩

/-- C6, evaluation at the failing input: the Start phase ends with the bus-error
status 0x00, so `i2cStart` yields `-1`; the address and data phases are
nominal, and the polled `i2cWrite` of one byte to 0x50 returns `BT_ERR_NONE`.
Likewise a polled `i2cRead` of zero bytes after a failed Start returns
`BT_ERR_NONE`. -/
theorem C6_start_failure_ignored :
    (i2cStart (polledHandle
        [ { stat := 0x00, dat := 0 },
          { stat := LPC11xx_I2C_STAT_ADDRESS_W_ACK, dat := 0 },
          { stat := LPC11xx_I2C_STAT_DATA_W_ACK, dat := 0 } ]).regs).map (fun p => p.1)
      = some MINUS_ONE ∧
    (i2cWrite (polledHandle
        [ { stat := 0x00, dat := 0 },
          { stat := LPC11xx_I2C_STAT_ADDRESS_W_ACK, dat := 0 },
          { stat := LPC11xx_I2C_STAT_DATA_W_ACK, dat := 0 } ]) 0x50 [0x11]).map (fun p => p.1)
      = some BT_ERR_NONE ∧
    (i2cRead (polledHandle
        [ { stat := 0x00, dat := 0 },
          { stat := LPC11xx_I2C_STAT_ADDRESS_R_ACK, dat := 0 } ]) 0x50 0).map (fun p => p.1)
      = some BT_ERR_NONE := by
  decide

/-! ## Clock divider: auxiliary facts -/

/-- The period never exceeds the input clock. -/
theorem period_le (ulInputClk : Nat) (eClockrate : BT_I2C_CLOCKRATE) :
    ulInputClk / ulClock eClockrate ≤ ulInputClk :=
  Nat.div_le_self _ _

/-- Every target frequency of the switch is at least 100 kHz. -/
theorem ulClock_ge (eClockrate : BT_I2C_CLOCKRATE) : 100000 ≤ ulClock eClockrate := by
  cases eClockrate <;> simp [ulClock]

/-- With a 32-bit input clock the period is below `2 ^ 16`. -/
theorem period_lt (ulInputClk : Nat) (eClockrate : BT_I2C_CLOCKRATE) (hin : ulInputClk < U32) :
    ulInputClk / ulClock eClockrate < 42950 := by
  have h1 := ulClock_ge eClockrate
  have hpos : 0 < ulClock eClockrate := by omega
  rw [Nat.div_lt_iff_lt_mul hpos]
  have : ulInputClk < 4294967296 := hin
  nlinarith

/-- The registers after `i2cSetClockrate`, when both values fit `w` bits. -/
theorem i2cSetClockrate_regs (w ulInputClk : Nat) (r : LPC11xx_I2C_REGS)
    (eClockrate : BT_I2C_CLOCKRATE) (hin : ulInputClk < U32)
    (hH : ulInputClk / ulClock eClockrate / 2 < 2 ^ w)
    (hL : ulInputClk / ulClock eClockrate - ulInputClk / ulClock eClockrate / 2 < 2 ^ w) :
    (i2cSetClockrate w ulInputClk r eClockrate).2.LPC11xx_I2C_SCLH
        = ulInputClk / ulClock eClockrate / 2 ∧
    (i2cSetClockrate w ulInputClk r eClockrate).2.LPC11xx_I2C_SCLL
        = ulInputClk / ulClock eClockrate - ulInputClk / ulClock eClockrate / 2 := by
  have hp := period_le ulInputClk eClockrate
  have hin2 : ulInputClk < 4294967296 := hin
  simp only [i2cSetClockrate]
  rw [Nat.mod_eq_of_lt hin, Nat.mod_eq_of_lt hH]
  refine ⟨rfl, ?_⟩
  have hU : U32 = 4294967296 := by decide
  have e : (ulInputClk / ulClock eClockrate + U32 - ulInputClk / ulClock eClockrate / 2) % U32
      = ulInputClk / ulClock eClockrate - ulInputClk / ulClock eClockrate / 2 := by
    rw [hU]
    generalize ulInputClk / ulClock eClockrate = p at hp
    omega
  rw [e, Nat.mod_eq_of_lt hL]

/-- The mode switch of `i2cSetConfig` leaves the register window alone. -/
theorem i2cSetConfig_regs (env : ConfigEnv) (rcc : LPC11xx_RCC_REGS) (hI2C : BT_OPAQUE_HANDLE)
    (pConfig : BT_I2C_CONFIG) :
    (i2cSetConfig env rcc hI2C pConfig).hI2C.regs
      = (i2cSetClockrate env.w env.ulInputClk (i2cEnable hI2C rcc).2.1.regs
          pConfig.ulClockrate).2 := by
  unfold i2cSetConfig
  rcases hm : pConfig.eMode with _ | _ | raw
  · simp only [i2cSetConfigPolled]
    split_ifs <;> (repeat' split) <;> rfl
  · simp only [i2cSetConfigBuffered]
    split_ifs <;> rfl
  · rfl

/-- C7. Divider sum (`i2cSetClockrate`): for every 32-bit input clock `f_in`
and every clock-rate value (target `f` = 100 kHz, 400 kHz, 1 MHz or 3.4 MHz)
whose divider values fit the `w`-bit divider registers, the programmed pair
satisfies `SCLH + SCLL = f_in / f` and `SCLL = f_in / f - SCLH`. -/
theorem C7_divider_sum (w ulInputClk : Nat) (r : LPC11xx_I2C_REGS)
    (eClockrate : BT_I2C_CLOCKRATE) (hin : ulInputClk < U32)
    (hH : ulInputClk / ulClock eClockrate / 2 < 2 ^ w)
    (hL : ulInputClk / ulClock eClockrate - ulInputClk / ulClock eClockrate / 2 < 2 ^ w) :
    (i2cSetClockrate w ulInputClk r eClockrate).2.LPC11xx_I2C_SCLH
      + (i2cSetClockrate w ulInputClk r eClockrate).2.LPC11xx_I2C_SCLL
        = ulInputClk / ulClock eClockrate ∧
    (i2cSetClockrate w ulInputClk r eClockrate).2.LPC11xx_I2C_SCLL
        = ulInputClk / ulClock eClockrate
          - (i2cSetClockrate w ulInputClk r eClockrate).2.LPC11xx_I2C_SCLH := by
  obtain ⟨e1, e2⟩ := i2cSetClockrate_regs w ulInputClk r eClockrate hin hH hL
  rw [e1, e2]
  omega

/-- C7, witness: 48 MHz input and 100 kHz target give period 480 and the pair
(240, 240) in 16-bit divider registers. -/
theorem C7_divider_sum_witness :
    ulClock BT_I2C_CLOCKRATE_100kHz = 100000 ∧ 48000000 / 100000 = 480 ∧
    (i2cSetClockrate 16 48000000 (LPC11xx_I2C_REGS.init [])
      BT_I2C_CLOCKRATE_100kHz).2.LPC11xx_I2C_SCLH = 240 ∧
    (i2cSetClockrate 16 48000000 (LPC11xx_I2C_REGS.init [])
      BT_I2C_CLOCKRATE_100kHz).2.LPC11xx_I2C_SCLL = 240 ∧
    ((i2cSetClockrate 16 48000000 (LPC11xx_I2C_REGS.init [])
        BT_I2C_CLOCKRATE_100kHz).2.LPC11xx_I2C_SCLH
      + (i2cSetClockrate 16 48000000 (LPC11xx_I2C_REGS.init [])
        BT_I2C_CLOCKRATE_100kHz).2.LPC11xx_I2C_SCLL
        = 48000000 / ulClock BT_I2C_CLOCKRATE_100kHz ∧
     (i2cSetClockrate 16 48000000 (LPC11xx_I2C_REGS.init [])
        BT_I2C_CLOCKRATE_100kHz).2.LPC11xx_I2C_SCLL
        = 48000000 / ulClock BT_I2C_CLOCKRATE_100kHz
          - (i2cSetClockrate 16 48000000 (LPC11xx_I2C_REGS.init [])
              BT_I2C_CLOCKRATE_100kHz).2.LPC11xx_I2C_SCLH) :=
  ⟨rfl, by decide, by decide, by decide,
   C7_divider_sum 16 48000000 (LPC11xx_I2C_REGS.init []) BT_I2C_CLOCKRATE_100kHz
     (by decide) (by decide) (by decide)⟩

/-- C8, counterexample: with a 12.1 MHz input and a 100 kHz target the period
is 121; both divider values fit 16 bits, the programmed `SCLH` is 60 and not
the ceiling `(121 + 1) / 2 = 61`. -/
theorem C8_counterexample :
    12100000 / ulClock BT_I2C_CLOCKRATE_100kHz = 121 ∧
    121 / 2 < 2 ^ 16 ∧ 121 - 121 / 2 < 2 ^ 16 ∧
    (i2cSetClockrate 16 12100000 (LPC11xx_I2C_REGS.init [])
      BT_I2C_CLOCKRATE_100kHz).2.LPC11xx_I2C_SCLH = 60 ∧
    (i2cSetClockrate 16 12100000 (LPC11xx_I2C_REGS.init [])
      BT_I2C_CLOCKRATE_100kHz).2.LPC11xx_I2C_SCLH
        ≠ (12100000 / ulClock BT_I2C_CLOCKRATE_100kHz + 1) / 2 := by
  decide

/-- C8, amended. Divider-high is the floor of the half period
(`i2cSetClockrate`): for every achievable pair the programmed `SCLH` equals
`(f_in / f) / 2`, and `SCLL` is the remainder `period - SCLH`, which is the
ceiling `(period + 1) / 2`. -/
theorem C8_divider_high_floor (w ulInputClk : Nat) (r : LPC11xx_I2C_REGS)
    (eClockrate : BT_I2C_CLOCKRATE) (hin : ulInputClk < U32)
    (hH : ulInputClk / ulClock eClockrate / 2 < 2 ^ w)
    (hL : ulInputClk / ulClock eClockrate - ulInputClk / ulClock eClockrate / 2 < 2 ^ w) :
    (i2cSetClockrate w ulInputClk r eClockrate).2.LPC11xx_I2C_SCLH
        = ulInputClk / ulClock eClockrate / 2 ∧
    (i2cSetClockrate w ulInputClk r eClockrate).2.LPC11xx_I2C_SCLL
        = ulInputClk / ulClock eClockrate
          - (i2cSetClockrate w ulInputClk r eClockrate).2.LPC11xx_I2C_SCLH ∧
    (i2cSetClockrate w ulInputClk r eClockrate).2.LPC11xx_I2C_SCLL
        = (ulInputClk / ulClock eClockrate + 1) / 2 := by
  obtain ⟨e1, e2⟩ := i2cSetClockrate_regs w ulInputClk r eClockrate hin hH hL
  rw [e1, e2]
  omega

/-- C8, witness of the amended claim at 12.1 MHz / 100 kHz: (60, 61). -/
theorem C8_divider_high_floor_witness :
    (i2cSetClockrate 16 12100000 (LPC11xx_I2C_REGS.init [])
        BT_I2C_CLOCKRATE_100kHz).2.LPC11xx_I2C_SCLH
      = 12100000 / ulClock BT_I2C_CLOCKRATE_100kHz / 2 ∧
    (i2cSetClockrate 16 12100000 (LPC11xx_I2C_REGS.init [])
        BT_I2C_CLOCKRATE_100kHz).2.LPC11xx_I2C_SCLL
      = 12100000 / ulClock BT_I2C_CLOCKRATE_100kHz
        - (i2cSetClockrate 16 12100000 (LPC11xx_I2C_REGS.init [])
            BT_I2C_CLOCKRATE_100kHz).2.LPC11xx_I2C_SCLH ∧
    (i2cSetClockrate 16 12100000 (LPC11xx_I2C_REGS.init [])
        BT_I2C_CLOCKRATE_100kHz).2.LPC11xx_I2C_SCLL
      = (12100000 / ulClock BT_I2C_CLOCKRATE_100kHz + 1) / 2 :=
  C8_divider_high_floor 16 12100000 (LPC11xx_I2C_REGS.init []) BT_I2C_CLOCKRATE_100kHz
    (by decide) (by decide) (by decide)

/-- C9, counterexample: with a 50 kHz input clock and the 100 kHz rate the
period is zero; `i2cSetConfig` returns `BT_ERR_NONE` and has stored 0 to both
divider registers. -/
theorem C9_counterexample :
    50000 / ulClock BT_I2C_CLOCKRATE_100kHz = 0 ∧
    (i2cSetConfig { w := 16, ulInputClk := 50000, rxAlloc := none, txAlloc := none } rccReset
      (polledHandle [])
      { eMode := BT_I2C_MODE_POLLED, ulClockrate := BT_I2C_CLOCKRATE_100kHz,
        ulRxBufferSize := 0, ulTxBufferSize := 0 }).Error = BT_ERR_NONE ∧
    (i2cSetConfig { w := 16, ulInputClk := 50000, rxAlloc := none, txAlloc := none } rccReset
      (polledHandle [])
      { eMode := BT_I2C_MODE_POLLED, ulClockrate := BT_I2C_CLOCKRATE_100kHz,
        ulRxBufferSize := 0, ulTxBufferSize := 0 }).hI2C.regs.log
      = [BusOp.CONSET [CtlBit.I2EN], BusOp.SCLH 0, BusOp.SCLL 0] := by
  decide

/-- C9, amended. No clock rate is rejected (`i2cSetConfig` /
`i2cSetClockrate`): for every 32-bit input clock and every clock-rate value
with a non-zero period, configure returns `BT_ERR_NONE` and programs
`SCLH = period / 2` and `SCLL = period - period / 2`; both are representable in
divider registers of at least 15 bits (the LPC11xx has 16) and their sum is
not zero. -/
theorem C9_configure_accepts (env : ConfigEnv) (rcc : LPC11xx_RCC_REGS)
    (hI2C : BT_OPAQUE_HANDLE) (pConfig : BT_I2C_CONFIG)
    (hin : env.ulInputClk < U32) (hw : 15 ≤ env.w)
    (hp : env.ulInputClk / ulClock pConfig.ulClockrate ≠ 0) :
    (i2cSetConfig env rcc hI2C pConfig).Error = BT_ERR_NONE ∧
    (i2cSetConfig env rcc hI2C pConfig).hI2C.regs.LPC11xx_I2C_SCLH
      = env.ulInputClk / ulClock pConfig.ulClockrate / 2 ∧
    (i2cSetConfig env rcc hI2C pConfig).hI2C.regs.LPC11xx_I2C_SCLL
      = env.ulInputClk / ulClock pConfig.ulClockrate
        - env.ulInputClk / ulClock pConfig.ulClockrate / 2 ∧
    (i2cSetConfig env rcc hI2C pConfig).hI2C.regs.LPC11xx_I2C_SCLH < 2 ^ env.w ∧
    (i2cSetConfig env rcc hI2C pConfig).hI2C.regs.LPC11xx_I2C_SCLL < 2 ^ env.w ∧
    0 < (i2cSetConfig env rcc hI2C pConfig).hI2C.regs.LPC11xx_I2C_SCLH
          + (i2cSetConfig env rcc hI2C pConfig).hI2C.regs.LPC11xx_I2C_SCLL := by
  have hlt := period_lt env.ulInputClk pConfig.ulClockrate hin
  have h15 : 2 ^ 15 ≤ 2 ^ env.w := Nat.pow_le_pow_right (by decide) hw
  have h15v : (2 : Nat) ^ 15 = 32768 := by decide
  have hH : env.ulInputClk / ulClock pConfig.ulClockrate / 2 < 2 ^ env.w := by omega
  have hL : env.ulInputClk / ulClock pConfig.ulClockrate
      - env.ulInputClk / ulClock pConfig.ulClockrate / 2 < 2 ^ env.w := by omega
  obtain ⟨e1, e2⟩ :=
    i2cSetClockrate_regs env.w env.ulInputClk (i2cEnable hI2C rcc).2.1.regs
      pConfig.ulClockrate hin hH hL
  rw [i2cSetConfig_regs, e1, e2]
  exact ⟨rfl, rfl, rfl, hH, hL, by omega⟩

/-- C9, witness of the amended claim: 48 MHz input, 100 kHz, 16-bit registers. -/
theorem C9_configure_accepts_witness :
    (i2cSetConfig { w := 16, ulInputClk := 48000000, rxAlloc := none, txAlloc := none }
      rccReset (polledHandle [])
      { eMode := BT_I2C_MODE_POLLED, ulClockrate := BT_I2C_CLOCKRATE_100kHz,
        ulRxBufferSize := 0, ulTxBufferSize := 0 }).Error = BT_ERR_NONE ∧
    (i2cSetConfig { w := 16, ulInputClk := 48000000, rxAlloc := none, txAlloc := none }
      rccReset (polledHandle [])
      { eMode := BT_I2C_MODE_POLLED, ulClockrate := BT_I2C_CLOCKRATE_100kHz,
        ulRxBufferSize := 0, ulTxBufferSize := 0 }).hI2C.regs.LPC11xx_I2C_SCLH < 2 ^ 16 :=
  have h := C9_configure_accepts
    { w := 16, ulInputClk := 48000000, rxAlloc := none, txAlloc := none } rccReset
    (polledHandle [])
    { eMode := BT_I2C_MODE_POLLED, ulClockrate := BT_I2C_CLOCKRATE_100kHz,
      ulRxBufferSize := 0, ulTxBufferSize := 0 }
    (by decide) (by decide) (by decide)
  ⟨h.1, h.2.2.2.1⟩

/-- Mode and buffers after one `i2cSetConfig`, by the requested mode. -/
theorem i2cSetConfig_mode (env : ConfigEnv) (rcc : LPC11xx_RCC_REGS) (h : BT_OPAQUE_HANDLE)
    (cfg : BT_I2C_CONFIG) :
    ((i2cSetConfig env rcc h cfg).hI2C.eMode,
     (i2cSetConfig env rcc h cfg).hI2C.hRxFifo,
     (i2cSetConfig env rcc h cfg).hI2C.hTxFifo,
     (i2cSetConfig env rcc h cfg).fifoOps) =
    match cfg.eMode with
    | BT_I2C_MODE_POLLED =>
      if h.eMode ≠ BT_I2C_MODE_POLLED then
        (BT_I2C_MODE_POLLED, none, none,
          (match h.hTxFifo with | some f => [FifoOp.close f] | none => []) ++
          (match h.hRxFifo with | some f => [FifoOp.close f] | none => []))
      else (h.eMode, h.hRxFifo, h.hTxFifo, [])
    | BT_I2C_MODE_BUFFERED =>
      if h.eMode ≠ BT_I2C_MODE_BUFFERED ∧ h.hRxFifo = none ∧ h.hTxFifo = none then
        (BT_I2C_MODE_BUFFERED, BT_FifoCreate env.rxAlloc cfg.ulRxBufferSize,
          BT_FifoCreate env.txAlloc cfg.ulTxBufferSize,
          [FifoOp.create cfg.ulRxBufferSize, FifoOp.create cfg.ulTxBufferSize])
      else (h.eMode, h.hRxFifo, h.hTxFifo, [])
    | BT_I2C_OPERATING_MODE.other _ => (h.eMode, h.hRxFifo, h.hTxFifo, []) := by
  unfold i2cSetConfig
  rcases hm : cfg.eMode with _ | _ | raw
  · simp only [i2cSetConfigPolled, i2cEnable]
    by_cases hp : h.eMode = BT_I2C_MODE_POLLED
    · simp [hp]
    · cases ht : h.hTxFifo <;> cases hr : h.hRxFifo <;> simp [hp, ht, hr]
  · simp only [i2cSetConfigBuffered, i2cEnable]
    by_cases hb : h.eMode = BT_I2C_MODE_BUFFERED
    · simp [hb]
    · by_cases hf : h.hRxFifo = none ∧ h.hTxFifo = none
      · simp [hb, hf]
      · simp only [ne_eq, hb, not_false_eq_true, hf, ↓reduceIte, and_false]
  · simp [i2cEnable]

/-- C10, evaluation at the failing input: on a freshly bound instance (Polled,
no buffers) a `configure(Buffered)` call whose two `BT_FifoCreate` calls return
`NULL` (requested sizes `0xFFFFFFFF`) returns `BT_ERR_NONE` and records mode
Buffered although neither buffer exists. -/
theorem C10_buffered_without_buffers :
    (polledHandle []).eMode = BT_I2C_MODE_POLLED ∧
    (polledHandle []).hRxFifo = none ∧ (polledHandle []).hTxFifo = none ∧
    (i2cSetConfig { w := 16, ulInputClk := 48000000, rxAlloc := none, txAlloc := none }
      rccReset (polledHandle [])
      { eMode := BT_I2C_MODE_BUFFERED, ulClockrate := BT_I2C_CLOCKRATE_100kHz,
        ulRxBufferSize := 0xFFFFFFFF, ulTxBufferSize := 0xFFFFFFFF }).Error = BT_ERR_NONE ∧
    (i2cSetConfig { w := 16, ulInputClk := 48000000, rxAlloc := none, txAlloc := none }
      rccReset (polledHandle [])
      { eMode := BT_I2C_MODE_BUFFERED, ulClockrate := BT_I2C_CLOCKRATE_100kHz,
        ulRxBufferSize := 0xFFFFFFFF, ulTxBufferSize := 0xFFFFFFFF }).hI2C.eMode
        = BT_I2C_MODE_BUFFERED ∧
    (i2cSetConfig { w := 16, ulInputClk := 48000000, rxAlloc := none, txAlloc := none }
      rccReset (polledHandle [])
      { eMode := BT_I2C_MODE_BUFFERED, ulClockrate := BT_I2C_CLOCKRATE_100kHz,
        ulRxBufferSize := 0xFFFFFFFF, ulTxBufferSize := 0xFFFFFFFF }).hI2C.hRxFifo = none ∧
    (i2cSetConfig { w := 16, ulInputClk := 48000000, rxAlloc := none, txAlloc := none }
      rccReset (polledHandle [])
      { eMode := BT_I2C_MODE_BUFFERED, ulClockrate := BT_I2C_CLOCKRATE_100kHz,
        ulRxBufferSize := 0xFFFFFFFF, ulTxBufferSize := 0xFFFFFFFF }).hI2C.hTxFifo = none := by
  decide

/-- The part of C10 that holds: when every `BT_FifoCreate` call of a sequence
of `i2cSetConfig` calls returns a buffer, then from an instance in Polled mode
without buffers the instance ends either Polled without buffers or Buffered
with both buffers, so both buffers exist if and only if the mode is Buffered. -/
theorem mode_buffer_invariant_when_create_succeeds (cs : List (ConfigEnv × BT_I2C_CONFIG)) :
    ∀ (rcc : LPC11xx_RCC_REGS) (h : BT_OPAQUE_HANDLE),
      (∀ c ∈ cs, c.1.rxAlloc.isSome = true ∧ c.1.txAlloc.isSome = true) →
      ((h.eMode = BT_I2C_MODE_POLLED ∧ h.hRxFifo = none ∧ h.hTxFifo = none) ∨
       (h.eMode = BT_I2C_MODE_BUFFERED ∧ buffersExist h)) →
      (((runConfig cs rcc h).1.eMode = BT_I2C_MODE_POLLED ∧
          (runConfig cs rcc h).1.hRxFifo = none ∧ (runConfig cs rcc h).1.hTxFifo = none) ∨
        ((runConfig cs rcc h).1.eMode = BT_I2C_MODE_BUFFERED ∧
          buffersExist (runConfig cs rcc h).1)) ∧
      (buffersExist (runConfig cs rcc h).1 ↔
        (runConfig cs rcc h).1.eMode = BT_I2C_MODE_BUFFERED) := by
  induction cs with
  | nil =>
    intro rcc h _ hinv
    refine ⟨hinv, ?_⟩
    rcases hinv with ⟨hm, hr, ht⟩ | ⟨hm, hb⟩
    · simp [runConfig, buffersExist, hm, hr, ht]
    · simp [runConfig, hm, hb]
  | cons c cs ih =>
    intro rcc h hall hinv
    obtain ⟨env, cfg⟩ := c
    simp only [runConfig]
    apply ih
    · intro c hc; exact hall c (List.mem_cons_of_mem _ hc)
    · have hok := hall (env, cfg) (List.mem_cons_self _ _)
      have hmode := i2cSetConfig_mode env rcc h cfg
      simp only at hok
      obtain ⟨a, ha⟩ := Option.isSome_iff_exists.mp hok.1
      obtain ⟨b, hb⟩ := Option.isSome_iff_exists.mp hok.2
      rcases hinv with ⟨hm, hr, ht⟩ | ⟨hm, hbe⟩
      · rcases hc : cfg.eMode with _ | _ | raw <;> rw [hc] at hmode <;>
          simp only [hm, hr, ht, ha, hb, BT_FifoCreate, ne_eq, not_true_eq_false,
            not_false_eq_true, ↓reduceIte, and_self, reduceCtorEq, Prod.mk.injEq] at hmode <;>
          obtain ⟨h1, h2, h3, _⟩ := hmode <;>
          simp [h1, h2, h3, buffersExist]
      · rcases hc : cfg.eMode with _ | _ | raw <;> rw [hc] at hmode <;>
          simp only [hm, ne_eq, not_true_eq_false, not_false_eq_true, ↓reduceIte, false_and,
            reduceCtorEq, Prod.mk.injEq] at hmode <;>
          obtain ⟨h1, h2, h3, _⟩ := hmode
        · left; exact ⟨h1, h2, h3⟩
        · right; exact ⟨h1, by unfold buffersExist; rw [h2, h3]; exact hbe⟩
        · right; exact ⟨h1, by unfold buffersExist; rw [h2, h3]; exact hbe⟩

/-- The second sentence of C10: `configure(Buffered)` on an instance that is
already Buffered performs no ring-buffer operation and leaves mode and both
buffer handles as they were. -/
theorem buffered_to_buffered_keeps_buffers (env : ConfigEnv) (rcc : LPC11xx_RCC_REGS)
    (h : BT_OPAQUE_HANDLE) (cfg : BT_I2C_CONFIG)
    (hm : h.eMode = BT_I2C_MODE_BUFFERED) (hc : cfg.eMode = BT_I2C_MODE_BUFFERED) :
    (i2cSetConfig env rcc h cfg).fifoOps = [] ∧
    (i2cSetConfig env rcc h cfg).hI2C.hRxFifo = h.hRxFifo ∧
    (i2cSetConfig env rcc h cfg).hI2C.hTxFifo = h.hTxFifo ∧
    (i2cSetConfig env rcc h cfg).hI2C.eMode = BT_I2C_MODE_BUFFERED := by
  have hmode := i2cSetConfig_mode env rcc h cfg
  rw [hc] at hmode
  simp only [hm, ne_eq, not_true_eq_false, false_and, ↓reduceIte, Prod.mk.injEq] at hmode
  obtain ⟨h1, h2, h3, h4⟩ := hmode
  exact ⟨h4, h2, h3, h1⟩

/-! ## Power control -/

/-- The `ENUM` resource behind an enumeration index. -/
theorem enumIndex_some (pDevice : BT_INTEGRATED_DEVICE) (i : Nat)
    (hi : enumIndex pDevice = some i) :
    ∃ res, BT_GetIntegratedResource pDevice BT_RESOURCE_ENUM 0 = some res ∧ res.ulStart = i := by
  unfold enumIndex at hi
  cases hE : BT_GetIntegratedResource pDevice BT_RESOURCE_ENUM 0 with
  | none => simp [hE] at hi
  | some res =>
    simp only [hE, Option.map_some', Option.some.injEq] at hi
    exact ⟨res, rfl, hi⟩

/-- Function `i2cGetPowerState` stores nothing through `pePowerState`, for
every instance and every state of the clock-control block. -/
theorem i2cGetPowerState_stores_nothing (hI2C : BT_OPAQUE_HANDLE) (rcc : LPC11xx_RCC_REGS)
    (q : PowerQuery) (h : i2cGetPowerState hI2C rcc = some q) :
    q.pePowerState = none ∧ q.rcc = rcc := by
  unfold i2cGetPowerState at h
  cases hc : isi2cPeripheralClockEnabled hI2C rcc with
  | none => simp [hc] at h
  | some b =>
    cases b <;> simp only [hc, Option.some.injEq] at h <;> subst h <;> exact ⟨rfl, rfl⟩

/-- For an instance whose enumeration index is not 0 the clock gate is not
wired: `i2cSetPowerState` returns `BT_ERR_NONE` for Awake and Asleep without
changing the clock-control block, and the gate reads as disabled. -/
theorem power_gate_not_wired (hI2C : BT_OPAQUE_HANDLE) (rcc : LPC11xx_RCC_REGS)
    (s : BT_POWER_STATE) (i : Nat) (hi : enumIndex hI2C.pDevice = some (i + 1))
    (hs : s = BT_POWER_STATE_AWAKE ∨ s = BT_POWER_STATE_ASLEEP) :
    i2cSetPowerState hI2C s rcc = some (BT_ERR_NONE, rcc) ∧
    isi2cPeripheralClockEnabled hI2C rcc = some false := by
  obtain ⟨res, hE, hres⟩ := enumIndex_some hI2C.pDevice (i + 1) hi
  rcases hs with hs | hs <;> subst hs <;>
    simp [i2cSetPowerState, enablei2cPeripheralClock, disablei2cPeripheralClock,
      isi2cPeripheralClockEnabled, hE, hres]

/-- C11, counterexample: the descriptor of unit 1 binds from start-up (handle 1,
object `ResetI2C unit1Handle`); on that instance
`i2cSetPowerState(BT_POWER_STATE_AWAKE)` returns `BT_ERR_NONE` and leaves the
clock-control block as it was; the clock gate then reads as disabled, and
`i2cGetPowerState` returns the Asleep constant and stores nothing through
`pePowerState`, so Awake is not reported in any way. -/
theorem C11_counterexample :
    i2c_probe (i2cDevice 0x5000 1 32) true (LPC11xx_I2C_REGS.init []) true DriverState.init
      = some ({ hI2C := some 1, pError := none },
          { g_I2C_HANDLES := [none, some 1, none],
            heap := [(1, ResetI2C unit1Handle)], next := 2, rcc := rccReset,
            irqDisabled := [], closed := [] }) ∧
    enumIndex (ResetI2C unit1Handle).pDevice = some 1 ∧
    i2cSetPowerState (ResetI2C unit1Handle) BT_POWER_STATE_AWAKE rccReset
      = some (BT_ERR_NONE, rccReset) ∧
    isi2cPeripheralClockEnabled (ResetI2C unit1Handle) rccReset = some false ∧
    i2cGetPowerState (ResetI2C unit1Handle) rccReset
      = some { ret := BT_POWER_STATE_ASLEEP, pePowerState := none, rcc := rccReset } := by
  decide

/-- C11, amended. Power state round trip at the clock gate
(`i2cSetPowerState` / `i2cGetPowerState`): for every instance whose descriptor
has enumeration index 0 and every `s` in {Awake, Asleep}, `i2cSetPowerState`
returns `BT_ERR_NONE`, and afterwards the clock-gate bit that
`i2cGetPowerState` reads back (`isi2cPeripheralClockEnabled`) is enabled
exactly when `s` is Awake; `i2cGetPowerState` is defined there, leaves the
clock-control block as it is, and a second query has the same outcome. -/
theorem C11_clock_gate_round_trip (hI2C : BT_OPAQUE_HANDLE) (rcc : LPC11xx_RCC_REGS)
    (s : BT_POWER_STATE) (hi : enumIndex hI2C.pDevice = some 0)
    (hs : s = BT_POWER_STATE_AWAKE ∨ s = BT_POWER_STATE_ASLEEP) :
    ∃ rcc1 q, i2cSetPowerState hI2C s rcc = some (BT_ERR_NONE, rcc1) ∧
      rcc1.SYSAHBCLKCTRL_I2C0EN = decide (s = BT_POWER_STATE_AWAKE) ∧
      rcc1.PRESETCTRL_I2C_DEASSERT = rcc.PRESETCTRL_I2C_DEASSERT ∧
      isi2cPeripheralClockEnabled hI2C rcc1 = some (decide (s = BT_POWER_STATE_AWAKE)) ∧
      i2cGetPowerState hI2C rcc1 = some q ∧
      q.rcc = rcc1 ∧
      i2cGetPowerState hI2C q.rcc = some q := by
  obtain ⟨res, hE, hres⟩ := enumIndex_some hI2C.pDevice 0 hi
  rcases hs with hs | hs <;> subst hs <;>
    simp [i2cSetPowerState, i2cGetPowerState, enablei2cPeripheralClock,
      disablei2cPeripheralClock, isi2cPeripheralClockEnabled, hE, hres]

/-- C11, witness of the amended claim: unit 0 is put to sleep from the awake
state (the gate bit goes from set to clear) and woken from the reset state
(the gate bit goes from clear to set). -/
theorem C11_clock_gate_round_trip_witness :
    enumIndex (polledHandle []).pDevice = some 0 ∧
    i2cSetPowerState (polledHandle []) BT_POWER_STATE_AWAKE rccReset
      = some (BT_ERR_NONE, { SYSAHBCLKCTRL_I2C0EN := true, PRESETCTRL_I2C_DEASSERT := false }) ∧
    i2cSetPowerState (polledHandle []) BT_POWER_STATE_ASLEEP
        { SYSAHBCLKCTRL_I2C0EN := true, PRESETCTRL_I2C_DEASSERT := true }
      = some (BT_ERR_NONE, { SYSAHBCLKCTRL_I2C0EN := false, PRESETCTRL_I2C_DEASSERT := true }) ∧
    (∃ rcc1 q,
      i2cSetPowerState (polledHandle []) BT_POWER_STATE_ASLEEP
        { SYSAHBCLKCTRL_I2C0EN := true, PRESETCTRL_I2C_DEASSERT := true }
        = some (BT_ERR_NONE, rcc1) ∧
      rcc1.SYSAHBCLKCTRL_I2C0EN = decide (BT_POWER_STATE_ASLEEP = BT_POWER_STATE_AWAKE) ∧
      rcc1.PRESETCTRL_I2C_DEASSERT = true ∧
      isi2cPeripheralClockEnabled (polledHandle []) rcc1
        = some (decide (BT_POWER_STATE_ASLEEP = BT_POWER_STATE_AWAKE)) ∧
      i2cGetPowerState (polledHandle []) rcc1 = some q ∧
      q.rcc = rcc1 ∧
      i2cGetPowerState (polledHandle []) q.rcc = some q) :=
  ⟨by decide, by decide, by decide,
   C11_clock_gate_round_trip (polledHandle [])
     { SYSAHBCLKCTRL_I2C0EN := true, PRESETCTRL_I2C_DEASSERT := true }
     BT_POWER_STATE_ASLEEP (by decide) (Or.inr rfl)⟩

/-! ## Write data phase after a failure -/

/-- A list of completions with one that is not "data write acknowledged" is
not all-acknowledged. -/
theorem allDataWAck_false (evs : List HwEvent)
    (hbad : ∃ e ∈ evs, e.stat ≠ LPC11xx_I2C_STAT_DATA_W_ACK) : allDataWAck evs = false := by
  obtain ⟨e, he, hne⟩ := hbad
  cases hall : allDataWAck evs with
  | false => rfl
  | true =>
    simp only [allDataWAck, List.all_eq_true, decide_eq_true_eq] at hall
    exact absurd (hall e he) hne

/-- C12, counterexample: a polled write of the bytes 0x11, 0x22, 0x33 to
address 0x50 whose first data byte is answered with the status 0x30 (data
write not acknowledged).  The bytes 0x22 and 0x33 are still stored to the data
register before Stop; the call returns `-1`. -/
theorem C12_counterexample :
    (i2cWrite (polledHandle
        [ { stat := LPC11xx_I2C_STAT_START_TRANSMITTED, dat := 0 },
          { stat := LPC11xx_I2C_STAT_ADDRESS_W_ACK, dat := 0 },
          { stat := 0x30, dat := 0 },
          { stat := LPC11xx_I2C_STAT_DATA_W_ACK, dat := 0 },
          { stat := LPC11xx_I2C_STAT_DATA_W_ACK, dat := 0 } ]) 0x50 [0x11, 0x22, 0x33]).map
      (fun p => (p.1, p.2.regs.log))
      = some (MINUS_ONE,
          startTrace ++ addressTrace 0xA0 ++
            [ BusOp.DAT 0x11, BusOp.CONCLR [CtlBit.SI], BusOp.waitSI,
              BusOp.DAT 0x22, BusOp.CONCLR [CtlBit.SI], BusOp.waitSI,
              BusOp.DAT 0x33, BusOp.CONCLR [CtlBit.SI], BusOp.waitSI ] ++ stopTrace) := by
  decide

/-- C12, amended. Write data phase after a failure (`i2cSendData` as run by a
polled `i2cWrite`): for every 7-bit address, byte list `bs` and completions of
the data phase of which at least one is not "data write acknowledged", the
call returns the bus error `-1` and issues Stop at the end, but the data phase
is not cut short: every byte of `bs`, also those after the failing one, is
stored to the data register in order before Stop. -/
theorem C12_write_failure_runs_to_end (hI2C : BT_OPAQUE_HANDLE) (a : Nat) (bs : List Nat)
    (e0 e1 : HwEvent) (evs rest : List HwEvent)
    (hm : hI2C.eMode = BT_I2C_MODE_POLLED) (ha : a < 128) (hb : ∀ b ∈ bs, b < 256)
    (hp : hI2C.regs.pending = e0 :: e1 :: (evs ++ rest))
    (hack : e1.stat = LPC11xx_I2C_STAT_ADDRESS_W_ACK ∨ e1.stat = LPC11xx_I2C_STAT_ADDRESS_R_ACK)
    (hlen : evs.length = bs.length)
    (hbad : ∃ e ∈ evs, e.stat ≠ LPC11xx_I2C_STAT_DATA_W_ACK) :
    ∃ h2, i2cWrite hI2C a bs = some (MINUS_ONE, h2) ∧
      h2.regs.log = hI2C.regs.log ++
        (startTrace ++ addressTrace ((a <<< 1) ||| 0) ++ sendTrace bs) ++ stopTrace ∧
      datWrites h2.regs.log = datWrites hI2C.regs.log ++ ((a <<< 1) ||| 0) :: bs := by
  have hl : bs.length + 2 ≤ hI2C.regs.pending.length := by
    rw [hp]; simp [hlen]
  obtain ⟨E, h2, hr⟩ := i2cWrite_polled_isSome hI2C a bs hm hl
  obtain ⟨f0, f1, rest1, hp1, hcase⟩ := i2cWrite_polled_some hI2C h2 a bs E hm hr
  rw [hp] at hp1
  simp only [List.cons.injEq] at hp1
  obtain ⟨_, he1, hrest⟩ := hp1
  subst he1
  rcases hcase with ⟨hnack, _⟩ | ⟨_, evs2, hevl, hevs, hE, hlog⟩
  · exact absurd hack hnack
  · rw [← hrest] at hevs
    obtain ⟨h1, _⟩ := List.append_inj hevs (by rw [hlen, hevl])
    rw [← h1, allDataWAck_false evs hbad] at hE
    simp only [Bool.false_eq_true, ↓reduceIte] at hE
    subst hE
    rw [addrByte_small a 0 ha (by omega), map_mod256 bs hb] at hlog
    refine ⟨h2, hr, hlog, ?_⟩
    rw [hlog]
    simp [datWrites_append, datWrites_sendTrace, startTrace, addressTrace, stopTrace, datWrites]

/-- C12, witness of the amended claim: the three-byte write of the
counterexample. -/
theorem C12_write_failure_runs_to_end_witness :
    ∃ h2, i2cWrite (polledHandle
        ({ stat := 0x08, dat := 0 } :: { stat := 0x18, dat := 0 } ::
          ([ { stat := 0x30, dat := 0 }, { stat := 0x28, dat := 0 },
             { stat := 0x28, dat := 0 } ] ++ []))) 0x50 [0x11, 0x22, 0x33]
        = some (MINUS_ONE, h2) ∧
      h2.regs.log = (polledHandle
        ({ stat := 0x08, dat := 0 } :: { stat := 0x18, dat := 0 } ::
          ([ { stat := 0x30, dat := 0 }, { stat := 0x28, dat := 0 },
             { stat := 0x28, dat := 0 } ] ++ []))).regs.log ++
        (startTrace ++ addressTrace ((0x50 <<< 1) ||| 0) ++ sendTrace [0x11, 0x22, 0x33])
          ++ stopTrace ∧
      datWrites h2.regs.log = datWrites (polledHandle
        ({ stat := 0x08, dat := 0 } :: { stat := 0x18, dat := 0 } ::
          ([ { stat := 0x30, dat := 0 }, { stat := 0x28, dat := 0 },
             { stat := 0x28, dat := 0 } ] ++ []))).regs.log
          ++ ((0x50 <<< 1) ||| 0) :: [0x11, 0x22, 0x33] :=
  C12_write_failure_runs_to_end _ 0x50 [0x11, 0x22, 0x33]
    { stat := 0x08, dat := 0 } { stat := 0x18, dat := 0 }
    [ { stat := 0x30, dat := 0 }, { stat := 0x28, dat := 0 }, { stat := 0x28, dat := 0 } ] []
    rfl (by decide) (by decide) rfl (Or.inl rfl) rfl
    ⟨{ stat := 0x30, dat := 0 }, by decide, by decide⟩

/-! ## Table indexing and failed binds -/

/-- Function `i2c_probe` is undefined exactly when the descriptor's
enumeration index lies outside the table: the index is used as a subscript
without a check. -/
theorem i2c_probe_none_iff (st : DriverState) (pDevice : BT_INTEGRATED_DEVICE)
    (createOk : Bool) (win : LPC11xx_I2C_REGS) (pErrorGiven : Bool) :
    i2c_probe pDevice createOk win pErrorGiven st = none ↔
      ∃ i, enumIndex pDevice = some i ∧ st.g_I2C_HANDLES.length ≤ i := by
  unfold i2c_probe enumIndex
  cases hE : BT_GetIntegratedResource pDevice BT_RESOURCE_ENUM 0 with
  | none => simp [probeFail]
  | some pResource =>
    simp only [Option.map_some', Option.some.injEq, exists_eq_left']
    by_cases hlt : pResource.ulStart < st.g_I2C_HANDLES.length
    · simp only [List.getElem?_eq_getElem hlt]
      have hnot : ¬ st.g_I2C_HANDLES.length ≤ pResource.ulStart := by omega
      simp only [hnot, iff_false]
      cases st.g_I2C_HANDLES[pResource.ulStart] with
      | some x => simp [probeFail]
      | none =>
        cases createOk with
        | false => simp [probeFail]
        | true =>
          simp only [Bool.true_eq_false, ↓reduceIte]
          cases hM : BT_GetIntegratedResource pDevice BT_RESOURCE_MEM 0 with
          | none => simp [probeFail]
          | some mem =>
            simp only [i2cSetPowerState, enablei2cPeripheralClock, hE]
            cases hI : BT_GetIntegratedResource pDevice BT_RESOURCE_IRQ 0 with
            | none => cases pResource.ulStart <;> simp [probeFail]
            | some irq => cases pResource.ulStart <;> simp
    · have hge : st.g_I2C_HANDLES.length ≤ pResource.ulStart := by omega
      simp [List.getElem?_eq_none hge, hge]

/-- C13, evaluation at the failing input: the complete descriptor with
enumeration index 3 is not rejected by `i2c_probe`; the three-entry table is
subscripted with 3 (the result `none` marks the access outside the table), and
`i2cCleanup` of an instance of that descriptor subscripts the table with 3 as
well. -/
theorem C13_index_out_of_bounds :
    enumIndex (i2cDevice 0x7000 3 34) = some 3 ∧
    DriverState.init.g_I2C_HANDLES.length = 3 ∧
    i2c_probe (i2cDevice 0x7000 3 34) true (LPC11xx_I2C_REGS.init []) true DriverState.init
      = none ∧
    stateWithUnit3.obj 1 = some { pRegs := 0x7000, regs := LPC11xx_I2C_REGS.init [],
                                  pDevice := i2cDevice 0x7000 3 34,
                                  eMode := BT_I2C_MODE_POLLED,
                                  hRxFifo := none, hTxFifo := none } ∧
    stateWithUnit3.g_I2C_HANDLES.length = 3 ∧
    i2cCleanup 1 stateWithUnit3 = none := by
  decide

/-- C14, evaluation at the failing inputs: from start-up, a bind of a
descriptor for unit 0 without register window returns `NULL` with
`BT_ERR_NO_MEMORY`, and one without interrupt line returns `NULL` with
`BT_ERR_GENERIC`; in both cases no instance is allocated but slot 0 of the
table keeps the destroyed handle, and a following bind of the complete
descriptor of unit 0 is refused with `BT_ERR_GENERIC`. -/
theorem C14_failed_bind_keeps_slot :
    i2c_probe i2cDeviceNoMem true (LPC11xx_I2C_REGS.init []) true DriverState.init
      = some ({ hI2C := none, pError := some BT_ERR_NO_MEMORY },
          { g_I2C_HANDLES := [some 1, none, none], heap := [], next := 2, rcc := rccReset,
            irqDisabled := [], closed := [] }) ∧
    i2c_probe (oLPC11xx_i2c0_device 0x4000) true (LPC11xx_I2C_REGS.init []) true
        { g_I2C_HANDLES := [some 1, none, none], heap := [], next := 2, rcc := rccReset,
          irqDisabled := [], closed := [] }
      = some ({ hI2C := none, pError := some BT_ERR_GENERIC },
          { g_I2C_HANDLES := [some 1, none, none], heap := [], next := 2, rcc := rccReset,
            irqDisabled := [], closed := [] }) ∧
    i2c_probe i2cDeviceNoIrq true (LPC11xx_I2C_REGS.init []) true DriverState.init
      = some ({ hI2C := none, pError := some BT_ERR_GENERIC },
          { g_I2C_HANDLES := [some 1, none, none], heap := [], next := 2,
            rcc := { SYSAHBCLKCTRL_I2C0EN := true, PRESETCTRL_I2C_DEASSERT := false },
            irqDisabled := [], closed := [] }) ∧
    i2c_probe (oLPC11xx_i2c0_device 0x4000) true (LPC11xx_I2C_REGS.init []) true
        { g_I2C_HANDLES := [some 1, none, none], heap := [], next := 2,
          rcc := { SYSAHBCLKCTRL_I2C0EN := true, PRESETCTRL_I2C_DEASSERT := false },
          irqDisabled := [], closed := [] }
      = some ({ hI2C := none, pError := some BT_ERR_GENERIC },
          { g_I2C_HANDLES := [some 1, none, none], heap := [], next := 2,
            rcc := { SYSAHBCLKCTRL_I2C0EN := true, PRESETCTRL_I2C_DEASSERT := false },
            irqDisabled := [], closed := [] }) ∧
    i2c_probe (oLPC11xx_i2c0_device 0x4000) true (LPC11xx_I2C_REGS.init []) true
        DriverState.init
      = some ({ hI2C := some 1, pError := none }, boundUnit0) := by
  decide

/-- Every bind that fails for a missing register window or interrupt line,
with a free slot and a handle from the allocator, returns `NULL` with an error
other than `BT_ERR_NONE`, allocates nothing, but leaves the destroyed handle in
the slot, so that every later bind for that index is refused with
`BT_ERR_GENERIC`. -/
theorem failed_bind_sets_slot (st : DriverState) (pDevice : BT_INTEGRATED_DEVICE)
    (win : LPC11xx_I2C_REGS) (pErrorGiven : Bool) (i : Nat)
    (hi : enumIndex pDevice = some i) (hs : st.g_I2C_HANDLES[i]? = some none)
    (hmiss : BT_GetIntegratedResource pDevice BT_RESOURCE_MEM 0 = none ∨
      BT_GetIntegratedResource pDevice BT_RESOURCE_IRQ 0 = none) :
    ∃ E st1, i2c_probe pDevice true win pErrorGiven st
        = some ({ hI2C := none, pError := if pErrorGiven then some E else none }, st1) ∧
      E ≠ BT_ERR_NONE ∧ st1.heap = st.heap ∧
      st1.g_I2C_HANDLES[i]? = some (some st.next) ∧
      ∀ pDevice2 createOk2 win2 pErrorGiven2, enumIndex pDevice2 = some i →
        i2c_probe pDevice2 createOk2 win2 pErrorGiven2 st1
          = some ({ hI2C := none,
                    pError := if pErrorGiven2 then some BT_ERR_GENERIC else none }, st1) := by
  obtain ⟨res, hE, hres⟩ := enumIndex_some pDevice i hi
  have hidx : i < st.g_I2C_HANDLES.length := by
    by_contra hcon
    rw [List.getElem?_eq_none (by omega)] at hs
    cases hs
  have hset : (st.g_I2C_HANDLES.set i (some st.next))[i]? = some (some st.next) :=
    List.getElem?_set_self hidx
  cases hM : BT_GetIntegratedResource pDevice BT_RESOURCE_MEM 0 with
  | none =>
    refine ⟨BT_ERR_NO_MEMORY,
      ({ st with
          next := st.next + 1,
          g_I2C_HANDLES := st.g_I2C_HANDLES.set i (some st.next) } : DriverState),
      ?_, by decide, rfl, hset, ?_⟩
    · unfold i2c_probe
      simp only [hE, hres, hs, hM, probeFail, Bool.true_eq_false, ↓reduceIte]
    · intro pDevice2 createOk2 win2 pErrorGiven2 hi2
      exact i2c_probe_occupied _ pDevice2 createOk2 win2 pErrorGiven2 i st.next hi2 hset
  | some mem =>
    have hI : BT_GetIntegratedResource pDevice BT_RESOURCE_IRQ 0 = none := by
      rcases hmiss with h | h
      · rw [hM] at h; cases h
      · exact h
    cases i with
    | zero =>
      refine ⟨BT_ERR_GENERIC,
        ({ st with
            next := st.next + 1,
            g_I2C_HANDLES := st.g_I2C_HANDLES.set 0 (some st.next),
            rcc := { st.rcc with SYSAHBCLKCTRL_I2C0EN := true } } : DriverState),
        ?_, by decide, rfl, hset, ?_⟩
      · unfold i2c_probe
        simp only [hE, hres, hs, hM, hI, probeFail, Bool.true_eq_false, ↓reduceIte,
          i2cSetPowerState, enablei2cPeripheralClock, Option.map_some']
      · intro pDevice2 createOk2 win2 pErrorGiven2 hi2
        exact i2c_probe_occupied _ pDevice2 createOk2 win2 pErrorGiven2 0 st.next hi2 hset
    | succ n =>
      refine ⟨BT_ERR_GENERIC,
        ({ st with
            next := st.next + 1,
            g_I2C_HANDLES := st.g_I2C_HANDLES.set (n + 1) (some st.next) } : DriverState),
        ?_, by decide, rfl, hset, ?_⟩
      · unfold i2c_probe
        simp only [hE, hres, hs, hM, hI, probeFail, Bool.true_eq_false, ↓reduceIte,
          i2cSetPowerState, enablei2cPeripheralClock, Option.map_some']
      · intro pDevice2 createOk2 win2 pErrorGiven2 hi2
        exact i2c_probe_occupied _ pDevice2 createOk2 win2 pErrorGiven2 (n + 1) st.next hi2
          hset

/-! ## Configuration read-back -/

/-- Function `i2cGetConfig` is defined exactly when the divider sum is not
zero. -/
theorem i2cGetConfig_isSome_iff (eQuery : BT_ERROR) (ulInputClk : Nat)
    (hI2C : BT_OPAQUE_HANDLE) (pConfig : BT_I2C_CONFIG) :
    (i2cGetConfig eQuery ulInputClk hI2C pConfig).isSome = true ↔
      (hI2C.regs.LPC11xx_I2C_SCLH + hI2C.regs.LPC11xx_I2C_SCLL) % U32 ≠ 0 := by
  unfold i2cGetConfig
  by_cases h : (hI2C.regs.LPC11xx_I2C_SCLH + hI2C.regs.LPC11xx_I2C_SCLL) % U32 = 0
  · simp [h]
  · simp [h]

/-- Whenever the input clock is below the target frequency, `i2cSetConfig`
returns `BT_ERR_NONE` with both divider registers zero, and the read-back in
`i2cGetConfig` divides by zero. -/
theorem zero_period_then_getConfig_undefined (env : ConfigEnv) (rcc : LPC11xx_RCC_REGS)
    (hI2C : BT_OPAQUE_HANDLE) (pConfig pConfig2 : BT_I2C_CONFIG) (eQuery : BT_ERROR)
    (ulInputClk2 : Nat)
    (hlow : env.ulInputClk % U32 < ulClock pConfig.ulClockrate) :
    (i2cSetConfig env rcc hI2C pConfig).Error = BT_ERR_NONE ∧
    (i2cSetConfig env rcc hI2C pConfig).hI2C.regs.LPC11xx_I2C_SCLH = 0 ∧
    (i2cSetConfig env rcc hI2C pConfig).hI2C.regs.LPC11xx_I2C_SCLL = 0 ∧
    i2cGetConfig eQuery ulInputClk2 (i2cSetConfig env rcc hI2C pConfig).hI2C pConfig2
      = none := by
  have hp : env.ulInputClk % U32 / ulClock pConfig.ulClockrate = 0 :=
    Nat.div_eq_of_lt hlow
  have hregs := i2cSetConfig_regs env rcc hI2C pConfig
  have h1 : (i2cSetConfig env rcc hI2C pConfig).hI2C.regs.LPC11xx_I2C_SCLH = 0 := by
    rw [hregs]; simp [i2cSetClockrate, hp]
  have h2 : (i2cSetConfig env rcc hI2C pConfig).hI2C.regs.LPC11xx_I2C_SCLL = 0 := by
    rw [hregs]; simp [i2cSetClockrate, hp]
  refine ⟨rfl, h1, h2, ?_⟩
  unfold i2cGetConfig
  simp [h1, h2]

/-- C15, evaluation at the failing input: with a 3 MHz input clock and the
rate `BT_I2C_CLOCKRATE_3400kHz` the period is zero; `i2cSetConfig` returns
`BT_ERR_NONE` with `SCLH = SCLL = 0`, and `i2cGetConfig` on that instance
divides by `SCLH + SCLL = 0` (the result `none` marks the undefined
division). -/
theorem C15_getConfig_divides_by_zero :
    3000000 / ulClock BT_I2C_CLOCKRATE_3400kHz = 0 ∧
    (i2cSetConfig { w := 16, ulInputClk := 3000000, rxAlloc := none, txAlloc := none }
      rccReset (polledHandle [])
      { eMode := BT_I2C_MODE_POLLED, ulClockrate := BT_I2C_CLOCKRATE_3400kHz,
        ulRxBufferSize := 0, ulTxBufferSize := 0 }).Error = BT_ERR_NONE ∧
    (i2cSetConfig { w := 16, ulInputClk := 3000000, rxAlloc := none, txAlloc := none }
      rccReset (polledHandle [])
      { eMode := BT_I2C_MODE_POLLED, ulClockrate := BT_I2C_CLOCKRATE_3400kHz,
        ulRxBufferSize := 0, ulTxBufferSize := 0 }).hI2C.regs.LPC11xx_I2C_SCLH
      + (i2cSetConfig { w := 16, ulInputClk := 3000000, rxAlloc := none, txAlloc := none }
          rccReset (polledHandle [])
          { eMode := BT_I2C_MODE_POLLED, ulClockrate := BT_I2C_CLOCKRATE_3400kHz,
            ulRxBufferSize := 0, ulTxBufferSize := 0 }).hI2C.regs.LPC11xx_I2C_SCLL = 0 ∧
    i2cGetConfig BT_ERR_GENERIC 3000000
      (i2cSetConfig { w := 16, ulInputClk := 3000000, rxAlloc := none, txAlloc := none }
        rccReset (polledHandle [])
        { eMode := BT_I2C_MODE_POLLED, ulClockrate := BT_I2C_CLOCKRATE_3400kHz,
          ulRxBufferSize := 0, ulTxBufferSize := 0 }).hI2C
      { eMode := BT_I2C_MODE_POLLED, ulClockrate := BT_I2C_CLOCKRATE_3400kHz,
        ulRxBufferSize := 0, ulTxBufferSize := 0 } = none := by
  decide

/-- With a non-zero period and divider registers of at least 15 bits, the
divider sum programmed by `i2cSetConfig` is the period, and the read-back in
`i2cGetConfig` is defined. -/
theorem getConfig_defined_when_period_nonzero (env : ConfigEnv) (rcc : LPC11xx_RCC_REGS)
    (hI2C : BT_OPAQUE_HANDLE) (pConfig pConfig2 : BT_I2C_CONFIG) (eQuery : BT_ERROR)
    (ulInputClk2 : Nat)
    (hin : env.ulInputClk < U32) (hw : 15 ≤ env.w)
    (hp : env.ulInputClk / ulClock pConfig.ulClockrate ≠ 0) :
    (i2cSetConfig env rcc hI2C pConfig).hI2C.regs.LPC11xx_I2C_SCLH
      + (i2cSetConfig env rcc hI2C pConfig).hI2C.regs.LPC11xx_I2C_SCLL
      = env.ulInputClk / ulClock pConfig.ulClockrate ∧
    (i2cGetConfig eQuery ulInputClk2 (i2cSetConfig env rcc hI2C pConfig).hI2C
      pConfig2).isSome = true := by
  have hlt := period_lt env.ulInputClk pConfig.ulClockrate hin
  have h15 : 2 ^ 15 ≤ 2 ^ env.w := Nat.pow_le_pow_right (by decide) hw
  have h15v : (2 : Nat) ^ 15 = 32768 := by decide
  have hH : env.ulInputClk / ulClock pConfig.ulClockrate / 2 < 2 ^ env.w := by omega
  have hL : env.ulInputClk / ulClock pConfig.ulClockrate
      - env.ulInputClk / ulClock pConfig.ulClockrate / 2 < 2 ^ env.w := by omega
  obtain ⟨e1, e2⟩ :=
    i2cSetClockrate_regs env.w env.ulInputClk (i2cEnable hI2C rcc).2.1.regs
      pConfig.ulClockrate hin hH hL
  have hsum : (i2cSetConfig env rcc hI2C pConfig).hI2C.regs.LPC11xx_I2C_SCLH
      + (i2cSetConfig env rcc hI2C pConfig).hI2C.regs.LPC11xx_I2C_SCLL
      = env.ulInputClk / ulClock pConfig.ulClockrate := by
    rw [i2cSetConfig_regs, e1, e2]; omega
  refine ⟨hsum, ?_⟩
  rw [i2cGetConfig_isSome_iff, hsum]
  have hU : U32 = 4294967296 := by decide
  rw [hU]
  omega

end LPC11xx
